import Mathlib

/-!
# Tympan_Library

A shallow embedding of member functions of `BufferedSDWriter` (src/SDWriter.h),
`AudioRateInterpolator_F32` (src/AudioRateInterpolator_F32.h),
`AudioSynthWaveform_F32` and `AudioSynthWaveformQuadrature_F32`
(src/synth_waveform_F32.cpp) and `AudioControlAIC3212`
(src/control_aic3212.cpp).

C++ `int` / `int32_t` values are Lean integers; every arithmetic operation
of the source is followed by `wrapInt32`, the reduction to the 32-bit
two's-complement range of the target (Teensy, ARM).  C++ integer division
truncates toward zero and is `Int.tdiv`.  A finite `float` or `double` value
is the rational number it denotes; an operation of the source on such values
is the exact operation followed by rounding to the nearest value of the type
(`roundFloat`, `roundDouble`: IEEE 754 binary32 and binary64, ties to even),
and the rounding is left out only where the exact result is itself a value
of the type (a comparison, a selection between two values, a product by 2).
Where a `float` may overflow, the type `float32` adds the infinities and NaN.
Pointers are addresses, 0 for the null pointer; calls into code outside the
sources (the block pool of `AudioStream_F32`, the I2C bus) take their results
as parameters and are recorded in the result.
-/

namespace Tympan

/-! ## Machine integers -/

/-- Smallest value of a 32-bit signed integer. -/
def INT32_MIN : Int := -2147483648

/-- Largest value of a 32-bit signed integer. -/
def INT32_MAX : Int := 2147483647

/-- Range predicate of `int` / `int32_t`. -/
def isInt32 (x : Int) : Prop := INT32_MIN ≤ x ∧ x ≤ INT32_MAX

instance (x : Int) : Decidable (isInt32 x) := by
  unfold isInt32; infer_instance

/-- Reduction of an integer to the 32-bit two's-complement range. -/
def wrapInt32 (x : Int) : Int := (x + 2147483648) % 4294967296 - 2147483648

/-- The Arduino `max` on `int`. -/
def imax (a b : Int) : Int := if a < b then b else a

/-! ## Binary floating point (IEEE 754) -/

/-- Round to the nearest integer, a tie to the even neighbour. -/
def roundHalfEven (x : ℚ) : Int :=
  if x - ⌊x⌋ < 1 / 2 then ⌊x⌋
  else if 1 / 2 < x - ⌊x⌋ then ⌊x⌋ + 1
  else if ⌊x⌋ % 2 = 0 then ⌊x⌋ else ⌊x⌋ + 1

/-- The exponent of the unit in the last place at `x` in the binary format
with `p` significand bits whose smallest positive (subnormal) value is
`2 ^ qmin`: for `2 ^ k ≤ |x| < 2 ^ (k + 1)` the values of the format are the
multiples of `2 ^ (k - (p - 1))`, and of `2 ^ qmin` below the normal range. -/
def ulpExponent (p : Nat) (qmin : Int) (x : ℚ) : Int :=
  max (Int.log 2 |x| - ((p : Int) - 1)) qmin

/-- Rounding to the nearest value of the binary format with `p` significand
bits and smallest positive value `2 ^ qmin`, a tie to the value with the even
significand (the IEEE 754 default).  The exponent is not bounded above:
overflow is decided by the caller. -/
def roundBinary (p : Nat) (qmin : Int) (x : ℚ) : ℚ :=
  (roundHalfEven (x / (2 : ℚ) ^ ulpExponent p qmin x) : ℚ) * (2 : ℚ) ^ ulpExponent p qmin x

/-- Rounding to `float` (binary32: 24 significand bits, smallest positive
value `2 ^ -149`). -/
def roundFloat (x : ℚ) : ℚ := roundBinary 24 (-149) x

/-- Rounding to `double` (binary64: 53 significand bits, smallest positive
value `2 ^ -1074`). -/
def roundDouble (x : ℚ) : ℚ := roundBinary 53 (-1074) x

/-- A value of the C++ type `float` on the target (IEEE 754 binary32): a
finite value, an infinity with its sign, or a NaN.  The sign of a zero is
not tracked (a zero is `+0`). -/
inductive float32 where
  | finite (value : ℚ)
  | infinity (negative : Bool)
  | nan
  deriving DecidableEq

/-- The `float` nearest to a real number: a rounded magnitude of `2 ^ 128` or
more (above the largest finite `float`) is an infinity. -/
def float32.ofRat (x : ℚ) : float32 :=
  if |roundFloat x| < 2 ^ 128 then float32.finite (roundFloat x)
  else float32.infinity (decide (x < 0))

/-- The conversion `(float)i` of an integer. -/
def float32.ofInt (i : Int) : float32 := float32.ofRat (i : ℚ)

/-- The `float` product `a * b`. -/
def float32.mul : float32 → float32 → float32
  | float32.finite a, float32.finite b => float32.ofRat (a * b)
  | float32.finite a, float32.infinity n =>
    if a = 0 then float32.nan else float32.infinity (xor (decide (a < 0)) n)
  | float32.infinity n, float32.finite b =>
    if b = 0 then float32.nan else float32.infinity (xor n (decide (b < 0)))
  | float32.infinity n, float32.infinity m => float32.infinity (xor n m)
  | _, _ => float32.nan

/-- A rational number that is a finite `float` value. -/
def isFloat (x : ℚ) : Prop := float32.ofRat x = float32.finite x

instance (x : ℚ) : Decidable (isFloat x) := by
  unfold isFloat; infer_instance

/-- A numeral is the finite `float` of that value. -/
instance (n : Nat) : OfNat float32 n := ⟨float32.finite (n : ℚ)⟩

/-! ## Constants of SDWriter.h -/

/-- `#define maxBufferLengthBytes 150000` -/
def maxBufferLengthBytes : Int := 150000

/-- `const int DEFAULT_SDWRITE_BYTES = 512;` -/
def DEFAULT_SDWRITE_BYTES : Int := 512

/-- `const int nBytesPerSample = 2;` -/
def nBytesPerSample : Int := 2

/-! ## State of a BufferedSDWriter -/

/-- The data members of `BufferedSDWriter` (and the two WAV members of its
base class `SDWriter`) that the inline member functions read or write.
`write_buffer` is the address held by the pointer, 0 for the null pointer. -/
structure BufferedSDWriter where
  WAV_sampleRate_Hz : ℚ
  WAV_nchan : Int
  writeSizeSamples : Int
  write_buffer : Int
  bufferWriteInd : Int
  bufferReadInd : Int
  bufferLengthSamples : Int
  bufferEndInd : Int
  ditheringMethod : Int
  deriving DecidableEq

/-- The member initialisers of the class bodies (SDWriter.h lines 115-116 and
194-202), before any constructor body runs. -/
def memberInit : BufferedSDWriter :=
  { WAV_sampleRate_Hz := 44100
    WAV_nchan := 2
    writeSizeSamples := 0
    write_buffer := 0
    bufferWriteInd := 0
    bufferReadInd := 0
    bufferLengthSamples := Int.tdiv maxBufferLengthBytes nBytesPerSample
    bufferEndInd := Int.tdiv maxBufferLengthBytes nBytesPerSample
    ditheringMethod := 0 }

/-- `void setWriteSizeSamples(const int _writeSizeSamples)`:
`writeSizeSamples = max(2, 2 * int(_writeSizeSamples / 2));` -/
def setWriteSizeSamples (s : BufferedSDWriter) (_writeSizeSamples : Int) : BufferedSDWriter :=
  { s with writeSizeSamples := imax 2 (wrapInt32 (2 * Int.tdiv _writeSizeSamples 2)) }

/-- `void setWriteSizeBytes(const int _writeSizeBytes)`:
`setWriteSizeSamples(_writeSizeBytes / nBytesPerSample);` -/
def setWriteSizeBytes (s : BufferedSDWriter) (_writeSizeBytes : Int) : BufferedSDWriter :=
  setWriteSizeSamples s (Int.tdiv _writeSizeBytes nBytesPerSample)

/-- `int getWriteSizeSamples(void) { return writeSizeSamples; }` -/
def getWriteSizeSamples (s : BufferedSDWriter) : Int := s.writeSizeSamples

/-- `int getWriteSizeBytes(void) { return (getWriteSizeSamples() * nBytesPerSample); }` -/
def getWriteSizeBytes (s : BufferedSDWriter) : Int :=
  wrapInt32 (getWriteSizeSamples s * nBytesPerSample)

/-- The constructors `BufferedSDWriter(SdFs*)` and `BufferedSDWriter(SdFs*, Print*)`:
member initialisers, then `setWriteSizeBytes(DEFAULT_SDWRITE_BYTES)`. -/
def construct : BufferedSDWriter := setWriteSizeBytes memberInit DEFAULT_SDWRITE_BYTES

/-- The constructor `BufferedSDWriter(SdFs*, Print*, const int _writeSizeBytes)`. -/
def constructWith (_writeSizeBytes : Int) : BufferedSDWriter :=
  setWriteSizeBytes memberInit _writeSizeBytes

/-- `void resetBuffer(void) { bufferReadInd = 0; bufferWriteInd = 0; }` -/
def resetBuffer (s : BufferedSDWriter) : BufferedSDWriter :=
  { s with bufferReadInd := 0, bufferWriteInd := 0 }

/-- `int allocateBuffer(const int _nBytes)`.
The outcome of `new (std::nothrow) int16_t[bufferLengthSamples]` is the
parameter `newPtr` (0 when the allocation fails).  Returns the new state
and `(int)write_buffer`. -/
def allocateBuffer (s : BufferedSDWriter) (newPtr : Int) (_nBytes : Int) :
    BufferedSDWriter × Int :=
  let s1 := { s with bufferLengthSamples := imax 4 (Int.tdiv _nBytes nBytesPerSample) }
  let s2 := { s1 with write_buffer := newPtr }
  let s3 := resetBuffer s2
  (s3, wrapInt32 s3.write_buffer)

/-- The call `allocateBuffer()` with the default argument
`_nBytes = maxBufferLengthBytes`. -/
def allocateBufferDefault (s : BufferedSDWriter) (newPtr : Int) : BufferedSDWriter × Int :=
  allocateBuffer s newPtr maxBufferLengthBytes

/-- `void freeBuffer(void)`: `delete[] write_buffer; write_buffer = nullptr; resetBuffer();` -/
def freeBuffer (s : BufferedSDWriter) : BufferedSDWriter :=
  resetBuffer { s with write_buffer := 0 }

/-- `int setDitheringMethod(int val) { return ditheringMethod = val; }` -/
def setDitheringMethod (s : BufferedSDWriter) (val : Int) : BufferedSDWriter × Int :=
  ({ s with ditheringMethod := val }, val)

/-- `int enableDithering(bool enable)`:
`if (enable) { return setDitheringMethod(0); } else { return setDitheringMethod(2); }` -/
def enableDithering (s : BufferedSDWriter) (enable : Bool) : BufferedSDWriter × Int :=
  if enable then setDitheringMethod s 0 else setDitheringMethod s 2

/-- `int getDitheringMethod(void) { return ditheringMethod; }` -/
def getDitheringMethod (s : BufferedSDWriter) : Int := s.ditheringMethod

/-- `int32_t getLengthOfBuffer(void) { return bufferLengthSamples; }` -/
def getLengthOfBuffer (s : BufferedSDWriter) : Int := s.bufferLengthSamples

/-- `int32_t getNumSampsInBuffer(void)`:
`if (bufferReadInd <= bufferWriteInd) return bufferWriteInd-bufferReadInd;`
`return getLengthOfBuffer() - bufferReadInd + bufferWriteInd;` -/
def getNumSampsInBuffer (s : BufferedSDWriter) : Int :=
  if s.bufferReadInd ≤ s.bufferWriteInd then
    wrapInt32 (s.bufferWriteInd - s.bufferReadInd)
  else
    wrapInt32 (wrapInt32 (getLengthOfBuffer s - s.bufferReadInd) + s.bufferWriteInd)

/-- `int32_t getNumUnfilledSamplesInBuffer(void)`:
`return getLengthOfBuffer() - getNumSampsInBuffer();` -/
def getNumUnfilledSamplesInBuffer (s : BufferedSDWriter) : Int :=
  wrapInt32 (getLengthOfBuffer s - getNumSampsInBuffer s)

/-! ## Capacity in milliseconds -/

/-- Modelled from the spec: `copyToWriteBuffer` is declared in SDWriter.h but
its body (SDWriter.cpp) is not among the sources.  Following the spec's
`enqueue` and `RingBuffer.write`: the `nsamps * numChan` interleaved samples
are written at the write index, which wraps at the buffer length; unread data
is never overwritten and the write index never catches the read index, so at
most `unfilled - 1` samples are written (a short write).  A copy that
reaches the end of the buffer is split in two linear copies: `toEnd` samples
up to the end, the rest from index 0.  Sample values are not tracked.
Returns the new state and the number of samples written. -/
def copyToWriteBuffer (s : BufferedSDWriter) (nsamps numChan : Int) : BufferedSDWriter × Int :=
  let total := wrapInt32 (nsamps * numChan)
  let room := wrapInt32 (getNumUnfilledSamplesInBuffer s - 1)
  let n := if total ≤ room then total else room
  if n ≤ 0 then (s, 0)
  else
    let toEnd := wrapInt32 (getLengthOfBuffer s - s.bufferWriteInd)
    let w := if n < toEnd then wrapInt32 (s.bufferWriteInd + n) else wrapInt32 (n - toEnd)
    ({ s with bufferWriteInd := w }, n)

/-- Modelled from the spec: one iteration of the drain loop, the read of one
chunk of `getWriteSizeSamples()` samples out of the ring buffer: the read
index advances by the chunk and wraps at the buffer length (a chunk that
reaches the end of the buffer is read in two linear pieces). -/
def readChunk (s : BufferedSDWriter) : BufferedSDWriter :=
  let toEnd := wrapInt32 (getLengthOfBuffer s - s.bufferReadInd)
  { s with bufferReadInd :=
      if getWriteSizeSamples s < toEnd then wrapInt32 (s.bufferReadInd + getWriteSizeSamples s)
      else wrapInt32 (getWriteSizeSamples s - toEnd) }

/-- Modelled from the spec: the loop of `drain`: while
`occupied() >= chunk_size`, read one chunk and issue a single storage write
of exactly the chunk size.  The second component is the log of storage
writes, the byte count of each in order.  The first argument bounds the
number of iterations. -/
def drainLoop : Nat → BufferedSDWriter × List Int → BufferedSDWriter × List Int
  | 0, st => st
  | fuel + 1, (s, writes) =>
    if getWriteSizeSamples s ≤ getNumSampsInBuffer s then
      drainLoop fuel (readChunk s, writes ++ [getWriteSizeBytes s])
    else (s, writes)

/-- Modelled from the spec: `writeBufferedData` is declared in SDWriter.h but
its body (SDWriter.cpp) is not among the sources.  Following the spec's
`drain`: chunks are written until less than one chunk remains.  Every
iteration removes at least one sample when the chunk size is positive, so
the occupancy bounds the number of iterations. -/
def writeBufferedData (st : BufferedSDWriter × List Int) : BufferedSDWriter × List Int :=
  drainLoop (getNumSampsInBuffer st.1).toNat st

/-- The writer of Scenario A: constructed with a write size of 512 bytes and
given the default buffer (75000 samples) by `allocateBuffer()`. -/
def scenarioWriter : BufferedSDWriter :=
  (allocateBufferDefault (constructWith 512) 536870912).1

/-- A writer of Scenario A whose empty buffer of 1200 samples has both indices
at 900, so that the enqueued samples wrap around the end of the buffer. -/
def scenarioWrapWriter : BufferedSDWriter :=
  { (allocateBuffer (constructWith 512) 536870912 2400).1 with
      bufferReadInd := 900, bufferWriteInd := 900 }

/-- Both indices of the ring buffer point into the buffer, whose length is
an `int32_t` value. -/
def indicesInRange (s : BufferedSDWriter) : Prop :=
  isInt32 (getLengthOfBuffer s)
  ∧ (0 ≤ s.bufferReadInd ∧ s.bufferReadInd < getLengthOfBuffer s)
  ∧ (0 ≤ s.bufferWriteInd ∧ s.bufferWriteInd < getLengthOfBuffer s)

instance (s : BufferedSDWriter) : Decidable (indicesInRange s) := by
  unfold indicesInRange; infer_instance

/-- A writer whose indices have wrapped: default construction, default buffer
of 75000 samples, read index 70000 and write index 5. -/
def wrappedWriter : BufferedSDWriter :=
  { construct with bufferReadInd := 70000, bufferWriteInd := 5 }

/-- A writer whose write index stands one past the last slot of the default
buffer (write index equal to the length), read index 0. -/
def endWriter : BufferedSDWriter :=
  { construct with bufferReadInd := 0, bufferWriteInd := 75000 }

/-! ## Audio blocks (AudioStream_F32.h, not among the sources) -/

/-- The null pointer. -/
def NULL : Int := 0

/-- Modelled from the spec: `audio_block_f32_t` is declared in
AudioStream_F32.h, which is not among the sources.  Of the spec's AudioBlock
(capacity, occupied length, sample rate, identifier, reference count) these
are the three fields that the code under src/ reads and writes: `length`
(`int`), `fs_Hz` (`float`) and `id` (unsigned).  The sample data is not
tracked. -/
structure audio_block_f32_t where
  length : Int
  fs_Hz : float32
  id : Int
  deriving DecidableEq

/-- The memory that holds audio blocks: the block stored at each address. -/
abbrev BlockHeap := Int → audio_block_f32_t

/-- Store `b` at address `p`. -/
def BlockHeap.write (heap : BlockHeap) (p : Int) (b : audio_block_f32_t) : BlockHeap :=
  fun q => if q = p then b else heap q

/-- Modelled from the spec: the calls a node makes into `AudioStream_F32`
(the spec's BlockPool interface), whose bodies are not among the sources.
`receiveReadOnly` and `allocate` carry the pointer the call returned (`NULL`
for no block); `transmit` carries the block pointer, the output index and
the contents of the block at the time of the call; `release` carries the
pointer passed. -/
inductive StreamCall where
  | receiveReadOnly (result : Int)
  | allocate (result : Int)
  | transmit (block : Int) (index : Int) (contents : audio_block_f32_t)
  | release (block : Int)
  deriving DecidableEq

/-- The non-null blocks a sequence of calls obtained, in order. -/
def obtainedBlocks : List StreamCall → List Int
  | [] => []
  | StreamCall.receiveReadOnly r :: t =>
    if r = NULL then obtainedBlocks t else r :: obtainedBlocks t
  | StreamCall.allocate r :: t =>
    if r = NULL then obtainedBlocks t else r :: obtainedBlocks t
  | _ :: t => obtainedBlocks t

/-- The pointers passed to `release`, in order. -/
def releasedBlocks : List StreamCall → List Int
  | [] => []
  | StreamCall.release b :: t => b :: releasedBlocks t
  | _ :: t => releasedBlocks t

/-- The blocks passed to `transmit` (contents at the time), in order. -/
def transmittedBlocks : List StreamCall → List audio_block_f32_t
  | [] => []
  | StreamCall.transmit _ _ c :: t => c :: transmittedBlocks t
  | _ :: t => transmittedBlocks t

/-! ## AudioRateInterpolator_F32 (src/AudioRateInterpolator_F32.h) -/

/-- `#define INTERP_FIR_F32_PASSTHRU ((const float32_t *) 1)` -/
def INTERP_FIR_F32_PASSTHRU : Int := 1

/-- `#define INTERP_FIR_MAX_COEFFS 200` -/
def INTERP_FIR_MAX_COEFFS : Int := 200

/-- The arguments of a call of the CMSIS-DSP routine
`arm_fir_interpolate_init_f32(&interp_inst, L, numTaps, pCoeffs, pState, blockSize)`
(the routine itself is external). -/
structure FirInterpolateInit where
  L : Int
  numTaps : Int
  pCoeffs : Int
  blockSize : Int
  deriving DecidableEq

/-- The data members of `AudioRateInterpolator_F32`.  Pointers are addresses:
`coeff_passthru` is the address of the one-element member array of that
name, `coeff_p` the value of the coefficient pointer.  `interp_inst` holds
the arguments of the latest initialisation of the filter instance, `none`
before any. -/
structure AudioRateInterpolator_F32 where
  start_sample_rate_Hz : float32
  end_sample_rate_Hz : float32
  is_armed : Bool
  is_enabled : Bool
  coeff_passthru : Int
  coeff_p : Int
  n_coeffs : Int
  upsamp_fac : Int
  configured_block_size : Int
  interp_inst : Option FirInterpolateInit
  deriving DecidableEq

/-- `const int fir_max_coeffs = INTERP_FIR_MAX_COEFFS;` -/
def fir_max_coeffs : Int := INTERP_FIR_MAX_COEFFS

/-- The constructor `AudioRateInterpolator_F32(void)`: the member
initialisers of the class body.  `coeff_p` has no initialiser, so its first
value is the parameter `coeff_p0`; so are the address of `coeff_passthru` and
the library constant `AUDIO_SAMPLE_RATE_EXACT`. -/
def AudioRateInterpolator_F32.construct (coeff_passthru coeff_p0 : Int)
    (AUDIO_SAMPLE_RATE_EXACT : float32) : AudioRateInterpolator_F32 :=
  { start_sample_rate_Hz := AUDIO_SAMPLE_RATE_EXACT
    end_sample_rate_Hz := AUDIO_SAMPLE_RATE_EXACT
    is_armed := false
    is_enabled := false
    coeff_passthru := coeff_passthru
    coeff_p := coeff_p0
    n_coeffs := 1
    upsamp_fac := 1
    configured_block_size := 0
    interp_inst := none }

/-- `bool get_is_enabled(void) { return is_enabled; }` -/
def AudioRateInterpolator_F32.get_is_enabled (s : AudioRateInterpolator_F32) : Bool :=
  s.is_enabled

/-- `bool begin(const float32_t *cp, const int _n_coeffs, const int _upsamp_fac,`
`const int block_size)` (lines 84-105).  The end sample rate is the `float`
product `start_sample_rate_Hz * (float)upsamp_fac`. -/
def AudioRateInterpolator_F32.begin (s : AudioRateInterpolator_F32)
    (cp _n_coeffs _upsamp_fac block_size : Int) : AudioRateInterpolator_F32 × Bool :=
  let s1 := { s with coeff_p := cp, n_coeffs := _n_coeffs, upsamp_fac := _upsamp_fac }
  let s2 :=
    if s1.coeff_p ≠ NULL ∧ s1.coeff_p ≠ INTERP_FIR_F32_PASSTHRU ∧ s1.n_coeffs ≤ fir_max_coeffs
    then
      { s1 with
          interp_inst := some
            { L := s1.upsamp_fac, numTaps := s1.n_coeffs, pCoeffs := s1.coeff_p,
              blockSize := block_size }
          configured_block_size := block_size
          end_sample_rate_Hz :=
            float32.mul s1.start_sample_rate_Hz (float32.ofInt s1.upsamp_fac)
          is_armed := true
          is_enabled := true }
    else { s1 with is_enabled := false }
  (s2, s2.get_is_enabled)

/-- `bool begin(void) { return begin(coeff_passthru, 1, 1, AUDIO_BLOCK_SAMPLES); }`
with the library constant `AUDIO_BLOCK_SAMPLES` as a parameter. -/
def AudioRateInterpolator_F32.beginDefault (s : AudioRateInterpolator_F32)
    (AUDIO_BLOCK_SAMPLES : Int) : AudioRateInterpolator_F32 × Bool :=
  s.begin s.coeff_passthru 1 1 AUDIO_BLOCK_SAMPLES

/-- `bool begin(const float32_t *cp, const int _n_coeffs, const int _upsamp_fac)`:
`return begin(cp, _n_coeffs, _upsamp_fac, AUDIO_BLOCK_SAMPLES);` -/
def AudioRateInterpolator_F32.beginMaxBlock (s : AudioRateInterpolator_F32)
    (cp _n_coeffs _upsamp_fac AUDIO_BLOCK_SAMPLES : Int) : AudioRateInterpolator_F32 × Bool :=
  s.begin cp _n_coeffs _upsamp_fac AUDIO_BLOCK_SAMPLES

/-- `bool enable(bool enable = true)` (lines 40-49). -/
def AudioRateInterpolator_F32.enable (s : AudioRateInterpolator_F32) (enable : Bool) :
    AudioRateInterpolator_F32 × Bool :=
  if enable = true ∧ (s.coeff_p ≠ INTERP_FIR_F32_PASSTHRU ∧ s.is_armed = true) then
    let s1 := { s with is_enabled := enable }
    (s1, s1.get_is_enabled)
  else
    let s1 := { s with is_enabled := false }
    (s1, s1.get_is_enabled)

/-- `void end(void) { coeff_p = NULL; enable(false); }` -/
def AudioRateInterpolator_F32.end_ (s : AudioRateInterpolator_F32) : AudioRateInterpolator_F32 :=
  (AudioRateInterpolator_F32.enable { s with coeff_p := NULL } false).1

/-- `int processAudioBlock(audio_block_f32_t *block, audio_block_f32_t *block_new)`
(lines 148-167).  `arm_fir_interpolate_f32` writes sample data of `block_new`
only, which is not tracked; the three assignments that follow it are made
one after the other through the pointers.  In `block->fs_Hz * upsamp_fac` the
`int` is converted to `float` and the product is the `float` product. -/
def AudioRateInterpolator_F32.processAudioBlock (s : AudioRateInterpolator_F32)
    (heap : BlockHeap) (block block_new : Int) :
    AudioRateInterpolator_F32 × BlockHeap × Int :=
  if s.is_enabled = false ∨ block = NULL ∨ block_new = NULL then (s, heap, -1)
  else
    let s1 :=
      if (heap block).length ≠ s.configured_block_size then
        (s.begin s.coeff_p s.n_coeffs s.upsamp_fac (heap block).length).1
      else s
    let heap1 := heap.write block_new
      { heap block_new with length := wrapInt32 ((heap block).length * s1.upsamp_fac) }
    let heap2 := heap1.write block_new { heap1 block_new with id := (heap1 block).id }
    let heap3 := heap2.write block_new
      { heap2 block_new with
          fs_Hz := float32.mul (heap2 block).fs_Hz (float32.ofInt s1.upsamp_fac) }
    (s1, heap3, 0)

/-- `void update(void)` (lines 107-145).  The results of
`receiveReadOnly_f32()` and `allocate_f32()` are the parameters `received`
and `allocated`; the third component of the result is the sequence of calls
made into `AudioStream_F32`. -/
def AudioRateInterpolator_F32.update (s : AudioRateInterpolator_F32) (heap : BlockHeap)
    (received allocated : Int) : AudioRateInterpolator_F32 × BlockHeap × List StreamCall :=
  if s.is_enabled = false then (s, heap, [])
  else
    let block := received
    if block = NULL then (s, heap, [StreamCall.receiveReadOnly block])
    else if s.coeff_p = NULL then
      (s, heap, [StreamCall.receiveReadOnly block, StreamCall.release block])
    else if s.coeff_p = INTERP_FIR_F32_PASSTHRU then
      (s, heap, [StreamCall.receiveReadOnly block, StreamCall.transmit block 0 (heap block),
        StreamCall.release block])
    else
      let block_new := allocated
      if block_new = NULL then
        (s, heap, [StreamCall.receiveReadOnly block, StreamCall.allocate block_new,
          StreamCall.release block])
      else
        let r := s.processAudioBlock heap block block_new
        (r.1, r.2.1, [StreamCall.receiveReadOnly block, StreamCall.allocate block_new,
          StreamCall.transmit block_new 0 (r.2.1 block_new), StreamCall.release block_new,
          StreamCall.release block])

/-- The three member functions that change whether the interpolator is
enabled, with their arguments. -/
inductive InterpolatorCall where
  | begin (cp _n_coeffs _upsamp_fac block_size : Int)
  | enable (enable : Bool)
  | end_
  deriving DecidableEq

/-- Make one call. -/
def AudioRateInterpolator_F32.call (s : AudioRateInterpolator_F32) :
    InterpolatorCall → AudioRateInterpolator_F32
  | InterpolatorCall.begin cp n up bs => (s.begin cp n up bs).1
  | InterpolatorCall.enable e => (s.enable e).1
  | InterpolatorCall.end_ => s.end_

/-- Make a sequence of calls, first to last. -/
def AudioRateInterpolator_F32.calls (s : AudioRateInterpolator_F32) :
    List InterpolatorCall → AudioRateInterpolator_F32
  | [] => s
  | c :: cs => AudioRateInterpolator_F32.calls (s.call c) cs

/-- A heap for the examples: every address holds a block of 128 samples at
44100 Hz whose identifier is 7. -/
def exampleHeap : BlockHeap := fun _ => { length := 128, fs_Hz := 44100, id := 7 }

/-- A heap whose blocks hold 128 samples at 44117.6484375 Hz, the `float`
nearest to 44117.64706, with identifier 7. -/
def teensyHeap : BlockHeap :=
  fun _ => { length := 128, fs_Hz := float32.finite (5647059 / 128), id := 7 }

/-- An interpolator at 44117.6484375 Hz after `begin(cp, 8, 3, 128)` with a
coefficient table at address 4096. -/
def teensyInterpolator : AudioRateInterpolator_F32 :=
  ((AudioRateInterpolator_F32.construct 2048 0 (float32.finite (5647059 / 128))).begin
    4096 8 3 128).1

/-- An interpolator for the examples: constructed, then
`begin(cp, 8, 2, 128)` with a coefficient table at address 4096. -/
def exampleInterpolator : AudioRateInterpolator_F32 :=
  ((AudioRateInterpolator_F32.construct 2048 0 44100).begin 4096 8 2 128).1

/-! ## AudioSynthWaveform_F32 (src/synth_waveform_F32.cpp) -/

/-- Reduction of an integer to the unsigned 32-bit range. -/
def wrapUInt32 (x : Int) : Int := x % 4294967296

/-- The data member of `AudioSynthWaveform_F32` that `update` reads and writes:
the block counter, an unsigned 32-bit integer (the class is declared in
synth_waveform_F32.h, which is not among the sources).  The oscillator
members (`_Phase`, `_Frequency`, ...) are `float` state used only by
`processAudioBlock` and `applyMod`, which write nothing but sample data and
that state; they are not tracked. -/
structure AudioSynthWaveform_F32 where
  block_counter : Int
  deriving DecidableEq

/-- `void AudioSynthWaveform_F32::update(void)` (lines 4-23).  The results of
`receiveReadOnly_f32(0)` and `allocate_f32()` are the parameters `received`
and `allocated`; the third component of the result is the sequence of calls
made into `AudioStream_F32`. -/
def AudioSynthWaveform_F32.update (s : AudioSynthWaveform_F32) (heap : BlockHeap)
    (received allocated : Int) : AudioSynthWaveform_F32 × BlockHeap × List StreamCall :=
  let s1 := { s with block_counter := wrapUInt32 (s.block_counter + 1) }
  let lfo_block := received
  let block_new := allocated
  if block_new = NULL then
    (s1, heap, [StreamCall.receiveReadOnly lfo_block, StreamCall.allocate block_new,
      StreamCall.release lfo_block])
  else
    let heap1 := heap.write block_new { heap block_new with id := s1.block_counter }
    (s1, heap1, [StreamCall.receiveReadOnly lfo_block, StreamCall.allocate block_new,
      StreamCall.transmit block_new 0 (heap1 block_new), StreamCall.release block_new,
      StreamCall.release lfo_block])

/-- A sequence of `update` calls, one per element of the list, which gives
the results of `receiveReadOnly_f32(0)` and `allocate_f32()` in that call.
The result lists the calls into `AudioStream_F32` made by each `update`. -/
def AudioSynthWaveform_F32.run (s : AudioSynthWaveform_F32) (heap : BlockHeap) :
    List (Int × Int) → List (List StreamCall)
  | [] => []
  | x :: rest =>
    (s.update heap x.1 x.2).2.2
      :: AudioSynthWaveform_F32.run (s.update heap x.1 x.2).1 (s.update heap x.1 x.2).2.1 rest

/-- The identifiers of the blocks transmitted by a sequence of `update`
calls, in the order of transmission. -/
def transmittedIds (calls : List (List StreamCall)) : List Int :=
  (calls.map (fun t => (transmittedBlocks t).map (fun b => b.id))).flatten

/-- The data member of `AudioSynthWaveformQuadrature_F32` that `update` reads
and writes, as for `AudioSynthWaveform_F32`. -/
structure AudioSynthWaveformQuadrature_F32 where
  block_counter : Int
  deriving DecidableEq

/-- `void AudioSynthWaveformQuadrature_F32::update(void)` (lines 92-121).  The
results of `receiveReadOnly_f32(0)` and of the two `allocate_f32()` calls are
the parameters `received`, `allocated` and `allocated2`. -/
def AudioSynthWaveformQuadrature_F32.update (s : AudioSynthWaveformQuadrature_F32)
    (heap : BlockHeap) (received allocated allocated2 : Int) :
    AudioSynthWaveformQuadrature_F32 × BlockHeap × List StreamCall :=
  let lfo_block := received
  let block_new := allocated
  let block2_new := allocated2
  if block_new = NULL ∨ block2_new = NULL then
    (s, heap, [StreamCall.receiveReadOnly lfo_block, StreamCall.allocate block_new,
      StreamCall.allocate block2_new, StreamCall.release lfo_block,
      StreamCall.release block_new, StreamCall.release block2_new])
  else
    let s1 := { s with block_counter := wrapUInt32 (s.block_counter + 1) }
    let heap1 := heap.write block_new { heap block_new with id := s1.block_counter }
    let s2 := { s1 with block_counter := wrapUInt32 (s1.block_counter + 1) }
    let heap2 := heap1.write block2_new { heap1 block2_new with id := s2.block_counter }
    (s2, heap2, [StreamCall.receiveReadOnly lfo_block, StreamCall.allocate block_new,
      StreamCall.allocate block2_new, StreamCall.transmit block_new 0 (heap2 block_new),
      StreamCall.transmit block2_new 1 (heap2 block2_new), StreamCall.release block_new,
      StreamCall.release block2_new, StreamCall.release lfo_block])

/-! ## The block pool (AudioStream_F32, not among the sources) -/

/-- Modelled from the spec: the BlockPool of spec section 4.1, whose code
(AudioStream_F32) is not among the sources: the addresses of the pool's
blocks and the reference count of each.  A block is in the free set when
its reference count is 0. -/
structure BlockPool where
  blocks : List Int
  ref_count : Int → Nat

/-- Modelled from the spec: the number of blocks in the free set. -/
def BlockPool.freeCount (pool : BlockPool) : Nat :=
  (pool.blocks.filter (fun b => decide (pool.ref_count b = 0))).length

/-- Modelled from the spec: the effect of one call on the pool (spec section
4.1).  `allocate` that returns a block gives it one owner; `release`
decrements the reference count, which returns the block to the free set at
zero, and does nothing for the null pointer (the code under src/ passes
pointers that may be null); `transmit` adds one owner per destination
connected to the output, `fanout index` of them; `receiveReadOnly` hands the
node a reference that the input queue held, so the count is unchanged. -/
def BlockPool.step (fanout : Int → Nat) (pool : BlockPool) : StreamCall → BlockPool
  | StreamCall.receiveReadOnly _ => pool
  | StreamCall.allocate r =>
    if r = NULL then pool
    else { pool with ref_count := fun q => if q = r then 1 else pool.ref_count q }
  | StreamCall.transmit b i _ =>
    { pool with ref_count := fun q => if q = b then pool.ref_count q + fanout i
                                      else pool.ref_count q }
  | StreamCall.release b =>
    if b = NULL then pool
    else { pool with ref_count := fun q => if q = b then pool.ref_count q - 1
                                           else pool.ref_count q }

/-- Modelled from the spec: the pool after a sequence of calls. -/
def BlockPool.run (fanout : Int → Nat) (pool : BlockPool) (calls : List StreamCall) :
    BlockPool :=
  calls.foldl (BlockPool.step fanout) pool

/-- A pool of two blocks for the examples: the block at 8192 has one owner
(it waits in the input queue of the node), the block at 12288 is free. -/
def examplePool : BlockPool :=
  { blocks := [8192, 12288], ref_count := fun q => if q = 8192 then 1 else 0 }

/-! ## AudioControlAIC3212 (src/control_aic3212.cpp) -/

/-- Conversion of an integer to `uint8_t`. -/
def toUInt8 (x : Int) : Int := x % 256

/-- Conversion of an integer to `int8_t` (two's complement). -/
def toInt8 (x : Int) : Int := (x + 128) % 256 - 128

/-- Bitwise OR of two integers as seen after conversion to `uint8_t` (the
conversion commutes with the bitwise operations of two's complement). -/
def byteOr (a b : Int) : Int := (((toUInt8 a).toNat ||| (toUInt8 b).toNat : Nat) : Int)

/-- The C library function `round`: the nearest integer, halfway cases away
from zero. -/
def cround (x : ℚ) : Int := if 0 ≤ x then ⌊x + 1 / 2⌋ else ⌈x - 1 / 2⌉

/-- `#define AIC3212_MICPGA_PAGE 0x01` -/
def AIC3212_MICPGA_PAGE : Int := 0x01

/-- `#define AIC3212_MICPGA_LEFT_VOLUME_REG 0x3B // page 1 register 59` -/
def AIC3212_MICPGA_LEFT_VOLUME_REG : Int := 0x3B

/-- `#define AIC3212_MICPGA_RIGHT_VOLUME_REG 0x3C // page 1 register 60` -/
def AIC3212_MICPGA_RIGHT_VOLUME_REG : Int := 0x3C

/-- `#define AIC3212_MICPGA_VOLUME_ENABLE 0b00000000` -/
def AIC3212_MICPGA_VOLUME_ENABLE : Int := 0

/-- `#define AIC3212_DAC_VOLUME_PAGE 0x00` -/
def AIC3212_DAC_VOLUME_PAGE : Int := 0x00

/-- `#define AIC3212_DAC_VOLUME_LEFT_REG 0x41 // page 0 reg 65` -/
def AIC3212_DAC_VOLUME_LEFT_REG : Int := 0x41

/-- `#define AIC3212_DAC_VOLUME_RIGHT_REG 0x42 // page 0 reg 66` -/
def AIC3212_DAC_VOLUME_RIGHT_REG : Int := 0x42

/-- The codec as `AudioControlAIC3212` sees it through `myWire`.  The I2C
bus and the TLV320AIC3212 are external: `wireResults` lists the values that
the coming calls of `myWire->endTransmission()` return, in order (0, success,
once the list is used up); `wireRequests` lists the values that the coming
calls of `myWire->requestFrom(i2cAddress, 1)` return (1, one byte received,
once the list is used up); `wireLog` lists the two bytes of every two-byte
transmission made so far; `currentPage` and `registers` are the page selected
in the codec and the contents of its registers by page and register, which an
acknowledged transmission `[reg, val]` changes: register 0 of every page is
the page-select register. -/
structure AudioControlAIC3212 where
  wireResults : List Int
  wireRequests : List Int
  wireLog : List (Int × Int)
  currentPage : Int
  registers : Int → Int → Int

/-- One transmission `beginTransmission; write(reg); write(val);`
`endTransmission()`: the result code, and the effect on the codec when the
transmission is acknowledged. -/
def AudioControlAIC3212.transmitPair (s : AudioControlAIC3212) (reg val : Int) :
    AudioControlAIC3212 × Int :=
  let result := s.wireResults.headD 0
  let s1 := { s with wireResults := s.wireResults.tail, wireLog := s.wireLog ++ [(reg, val)] }
  if result = 0 then
    if reg = 0 then ({ s1 with currentPage := val }, result)
    else
      ({ s1 with registers := fun p r =>
          if p = s1.currentPage ∧ r = reg then val else s1.registers p r }, result)
  else (s1, result)

/-- `bool aic_goToPage(byte page)` (lines 862-880). -/
def AudioControlAIC3212.aic_goToPage (s : AudioControlAIC3212) (page : Int) :
    AudioControlAIC3212 × Bool :=
  let r := s.transmitPair 0x00 (toUInt8 page)
  if r.2 ≠ 0 then (r.1, false) else (r.1, true)

/-- `bool aic_writeRegister(uint8_t reg, uint8_t val)` (lines 848-860). -/
def AudioControlAIC3212.aic_writeRegister (s : AudioControlAIC3212) (reg val : Int) :
    AudioControlAIC3212 × Bool :=
  let r := s.transmitPair (toUInt8 reg) (toUInt8 val)
  if r.2 = 0 then (r.1, true) else (r.1, false)

/-- `bool aic_writePage(uint8_t page, uint8_t reg, uint8_t val)` (lines 830-847). -/
def AudioControlAIC3212.aic_writePage (s : AudioControlAIC3212) (page reg val : Int) :
    AudioControlAIC3212 × Bool :=
  let g := s.aic_goToPage (toUInt8 page)
  if g.2 = true then g.1.aic_writeRegister (toUInt8 reg) (toUInt8 val)
  else (g.1, false)

/-- `float applyLimitsOnInputGainSetting(float gain_dB)` (lines 459-469). -/
def applyLimitsOnInputGainSetting (gain_dB : ℚ) : ℚ :=
  let g1 := if gain_dB < 0 then 0 else gain_dB
  let g2 := if g1 > 47.5 then 47.5 else g1
  g2

/-- `float setInputGain_dB(float orig_gain_dB, int Ichan)` (lines 470-493).
The warning and debug lines printed to `Serial` are left out. -/
def AudioControlAIC3212.setInputGain_dB (s : AudioControlAIC3212) (orig_gain_dB : ℚ)
    (Ichan : Int) : AudioControlAIC3212 × ℚ :=
  let gain_dB := applyLimitsOnInputGainSetting orig_gain_dB
  let volume : ℚ := gain_dB * 2
  let volume_int : Int := toInt8 (cround volume)
  if Ichan = 0 then
    ((s.aic_writePage AIC3212_MICPGA_PAGE AIC3212_MICPGA_LEFT_VOLUME_REG
        (byteOr AIC3212_MICPGA_VOLUME_ENABLE volume_int)).1, gain_dB)
  else
    ((s.aic_writePage AIC3212_MICPGA_PAGE AIC3212_MICPGA_RIGHT_VOLUME_REG
        (byteOr AIC3212_MICPGA_VOLUME_ENABLE volume_int)).1, gain_dB)

/-- `float applyLimitsOnVolumeSetting(float vol_dB)` (lines 524-535). -/
def applyLimitsOnVolumeSetting (vol_dB : ℚ) : ℚ :=
  let v1 := if vol_dB > 24 then 24 else vol_dB
  let v2 := if v1 < -63.5 then -63.5 else v1
  v2

/-- `float volume_dB(float orig_vol_dB, int Ichan)` (lines 536-555).  The
warning and debug lines printed to `Serial` are left out. -/
def AudioControlAIC3212.volume_dB (s : AudioControlAIC3212) (orig_vol_dB : ℚ) (Ichan : Int) :
    AudioControlAIC3212 × ℚ :=
  let vol_dB := applyLimitsOnVolumeSetting orig_vol_dB
  let volume_int : Int := toInt8 (cround (vol_dB * 2))
  if Ichan = 0 then
    ((s.aic_writePage AIC3212_DAC_VOLUME_PAGE AIC3212_DAC_VOLUME_LEFT_REG volume_int).1, vol_dB)
  else
    ((s.aic_writePage AIC3212_DAC_VOLUME_PAGE AIC3212_DAC_VOLUME_RIGHT_REG volume_int).1, vol_dB)

/-- `float volume_dB(float vol_dB)` (lines 560-563): the right channel, then
the left channel with the value the first call returned. -/
def AudioControlAIC3212.volume_dB_both (s : AudioControlAIC3212) (vol_dB : ℚ) :
    AudioControlAIC3212 × ℚ :=
  let r := s.volume_dB vol_dB 1
  r.1.volume_dB r.2 0

/-- The local `vol_dB` of `bool volume(float volume)` (lines 503-504):
`volume = max(0.0, min(1.0, volume));`
`float vol_dB = -58.f + (15.0 - (-58.0f)) * volume;`
The literals `0.0`, `1.0` and `15.0` are `double`: the selections, the
difference, the product and the sum are `double` operations on the converted
`float` operands, and each of the two assignments converts the `double`
result to `float`.  No value exceeds 73 in magnitude, so none overflows. -/
def volume_vol_dB (volume : ℚ) : ℚ :=
  let volume1 : ℚ := roundFloat (max 0 (min 1 volume))
  roundFloat (roundDouble (-58 + roundDouble (roundDouble (15 - (-58)) * volume1)))

/-- `bool volume(float volume)` (lines 502-507). -/
def AudioControlAIC3212.volume (s : AudioControlAIC3212) (volume : ℚ) :
    AudioControlAIC3212 × Bool :=
  let vol_dB : ℚ := volume_vol_dB volume
  ((s.volume_dB_both vol_dB).1, true)

/-- A codec for the examples: page 0 selected, all registers 0, a bus that
acknowledges every transmission. -/
def exampleCodec : AudioControlAIC3212 :=
  { wireResults := [], wireRequests := [], wireLog := [], currentPage := 0,
    registers := fun _ _ => 0 }

/-- The specification's value for the MicPGA volume register:
`round(2 * g)` for `g` clamped to [0, 47.5]. -/
def micPgaCode (g : ℚ) : Int := cround (2 * min (max g 0) (95 / 2))

/-- The specification's value for the DAC volume register: `round(2 * v)`
for `v` clamped to [-63.5, 24]. -/
def dacVolumeCode (v : ℚ) : Int := cround (2 * max (min v 24) (-127 / 2))

/-- The bitwise AND of C on two non-negative integers. -/
def bitAnd (a b : Int) : Int := ((a.toNat &&& b.toNat : Nat) : Int)

/-- The bitwise OR of C on two non-negative integers. -/
def bitOr (a b : Int) : Int := ((a.toNat ||| b.toNat : Nat) : Int)

/-- The right shift `c >> n` of C on a non-negative integer. -/
def bitShiftRight (c : Int) (n : Nat) : Int := ((c.toNat >>> n : Nat) : Int)

/-- `#define AIC3212_MICPGA_BIAS_REG 0x33 // page 1 reg 0x33` -/
def AIC3212_MICPGA_BIAS_REG : Int := 0x33

/-- `#define AIC3212_MIC_BIAS_EXT_MASK 0b00001111` (line 184, under the
heading "Possible settings for Mic Bias"). -/
def AIC3212_MIC_BIAS_MASK : Int := 0b00001111

/-- `#define AIC3212_MIC_BIAS_POWER_ON 0b00000100` -/
def AIC3212_MIC_BIAS_POWER_ON : Int := 0b00000100

/-- `#define AIC3212_MIC_BIAS_POWER_OFF 0b00000000` -/
def AIC3212_MIC_BIAS_POWER_OFF : Int := 0b00000000

/-- `#define AIC3212_MIC_BIAS_OUTPUT_VOLTAGE_1_62 0b00000000` -/
def AIC3212_MIC_BIAS_OUTPUT_VOLTAGE_1_62 : Int := 0b00000000

/-- `#define AIC3212_MIC_BIAS_OUTPUT_VOLTAGE_2_4 0b00000001` -/
def AIC3212_MIC_BIAS_OUTPUT_VOLTAGE_2_4 : Int := 0b00000001

/-- `#define AIC3212_MIC_BIAS_OUTPUT_VOLTAGE_3_0 0x00000010` (hexadecimal in
the source). -/
def AIC3212_MIC_BIAS_OUTPUT_VOLTAGE_3_0 : Int := 0x00000010

/-- `#define AIC3212_MIC_BIAS_OUTPUT_VOLTAGE_3_3 0x00000011` (hexadecimal in
the source). -/
def AIC3212_MIC_BIAS_OUTPUT_VOLTAGE_3_3 : Int := 0x00000011

/-- The constants of control_aic3212.h, which is not among the sources, that
the functions below compare their arguments with or pass on: the page of the
mic-bias register, the five arguments of `setMicBias` and the three channel
indices. -/
structure AIC3212Header where
  AIC3212_MIC_BIAS_PAGE : Int
  AIC3212_MIC_BIAS_OFF : Int
  AIC3212_MIC_BIAS_1_62 : Int
  AIC3212_MIC_BIAS_2_4 : Int
  AIC3212_MIC_BIAS_3_0 : Int
  AIC3212_MIC_BIAS_3_3 : Int
  BOTH_CHAN : Int
  LEFT_CHAN : Int
  RIGHT_CHAN : Int
  deriving DecidableEq

/-- The constants of the header are pairwise different within each group
(the arguments of `setMicBias`; the channel indices, which are the labels of
one `switch`). -/
def AIC3212Header.distinct (h : AIC3212Header) : Prop :=
  [h.AIC3212_MIC_BIAS_OFF, h.AIC3212_MIC_BIAS_1_62, h.AIC3212_MIC_BIAS_2_4,
    h.AIC3212_MIC_BIAS_3_0, h.AIC3212_MIC_BIAS_3_3].Nodup
  ∧ [h.BOTH_CHAN, h.LEFT_CHAN, h.RIGHT_CHAN].Nodup

instance (h : AIC3212Header) : Decidable h.distinct := by
  unfold AIC3212Header.distinct; infer_instance

/-- `unsigned int aic_readPage(uint8_t page, uint8_t reg)` (lines 785-827).
The one-byte transmission that sets the register address takes its result
from `wireResults`; `requestFrom` takes its result from `wireRequests`;
`available()` is the number of bytes `requestFrom` delivered; the byte read
is the register of the page selected in the codec. -/
def AudioControlAIC3212.aic_readPage (s : AudioControlAIC3212) (page reg : Int) :
    AudioControlAIC3212 × Int :=
  let g := s.aic_goToPage (toUInt8 page)
  if g.2 = true then
    let result := g.1.wireResults.headD 0
    let s1 := { g.1 with wireResults := g.1.wireResults.tail }
    if result ≠ 0 then (s1, 300 + result)
    else
      let received := s1.wireRequests.headD 1
      let s2 := { s1 with wireRequests := s1.wireRequests.tail }
      if received < 1 then (s2, 400)
      else if received ≥ 1 then
        (s2, if toUInt8 reg = 0 then s2.currentPage
             else s2.registers s2.currentPage (toUInt8 reg))
      else (s2, 600)
  else (g.1, 500)

/-- `bool setMicBias(int n)` (lines 359-381).  The result of `aic_goToPage`
is not looked at; the error line printed to `Serial` is left out. -/
def AudioControlAIC3212.setMicBias (hdr : AIC3212Header) (s : AudioControlAIC3212) (n : Int) :
    AudioControlAIC3212 × Bool :=
  let s1 := (s.aic_goToPage hdr.AIC3212_MIC_BIAS_PAGE).1
  if n = hdr.AIC3212_MIC_BIAS_1_62 then
    ((s1.aic_writeRegister AIC3212_MICPGA_BIAS_REG
        (bitOr AIC3212_MIC_BIAS_POWER_ON AIC3212_MIC_BIAS_OUTPUT_VOLTAGE_1_62)).1, true)
  else if n = hdr.AIC3212_MIC_BIAS_2_4 then
    ((s1.aic_writeRegister AIC3212_MICPGA_BIAS_REG
        (bitOr AIC3212_MIC_BIAS_POWER_ON AIC3212_MIC_BIAS_OUTPUT_VOLTAGE_2_4)).1, true)
  else if n = hdr.AIC3212_MIC_BIAS_3_0 then
    ((s1.aic_writeRegister AIC3212_MICPGA_BIAS_REG
        (bitOr AIC3212_MIC_BIAS_POWER_ON AIC3212_MIC_BIAS_OUTPUT_VOLTAGE_3_0)).1, true)
  else if n = hdr.AIC3212_MIC_BIAS_3_3 then
    ((s1.aic_writeRegister AIC3212_MICPGA_BIAS_REG
        (bitOr AIC3212_MIC_BIAS_POWER_ON AIC3212_MIC_BIAS_OUTPUT_VOLTAGE_3_3)).1, true)
  else if n = hdr.AIC3212_MIC_BIAS_OFF then
    ((s1.aic_writeRegister AIC3212_MICPGA_BIAS_REG AIC3212_MIC_BIAS_POWER_OFF).1, true)
  else (s1, false)

/-- `bool enableMicDetect(bool state)` (lines 897-912).  `byte` variables hold
the value converted to `uint8_t`; the first assignment to `newVal` in the
enable branch is overwritten by the second, which starts from `curVal`. -/
def AudioControlAIC3212.enableMicDetect (s : AudioControlAIC3212) (state : Bool) :
    AudioControlAIC3212 × Bool :=
  let r := s.aic_readPage 0 67
  let curVal := toUInt8 r.2
  let newVal := curVal
  if state = true then
    let _newVal1 := toUInt8 (bitAnd 0b111010111 newVal)
    let newVal2 := toUInt8 (bitOr 0b10000000 curVal)
    ((r.1.aic_writePage 0 67 newVal2).1, state)
  else
    let newVal1 := toUInt8 (bitAnd 0b01111111 newVal)
    ((r.1.aic_writePage 0 67 newVal1).1, state)

/-- `void muteLineOut(bool flag)` (lines 705-743).  The literals are those of
the source: `0b01000000`, `0b10111111` and, in the unmute branch,
`0b0100000000`. -/
def AudioControlAIC3212.muteLineOut (s : AudioControlAIC3212) (flag : Bool) :
    AudioControlAIC3212 :=
  let rL := s.aic_readPage 1 18
  let curValL := toUInt8 rL.2
  let rR := rL.1.aic_readPage 1 19
  let curValR := toUInt8 rR.2
  let s1 := (rR.1.aic_goToPage 1).1
  if flag = true then
    let s2 :=
      if bitAnd curValL 0b01000000 = 0 then s1
      else (s1.aic_writeRegister 18 (bitAnd curValL 0b10111111)).1
    let s3 :=
      if bitAnd curValR 0b01000000 = 0 then s2
      else (s2.aic_writeRegister 19 (bitAnd curValR 0b10111111)).1
    s3
  else
    let s2 :=
      if bitAnd curValL 0b01000000 ≠ 0 then s1
      else (s1.aic_writeRegister 18 (bitOr curValL 0b0100000000)).1
    let s3 :=
      if bitAnd curValR 0b01000000 ≠ 0 then s2
      else (s2.aic_writeRegister 19 (bitOr curValR 0b0100000000)).1
    s3

/-- `int page_reg_table[]` of `setBiquadCoeffOnADC` (lines 1036-1062). -/
def page_reg_table : List Int :=
  [ 8, 36, 9, 44,
    8, 40, 9, 48,
    8, 44, 9, 52,
    8, 48, 9, 56,
    8, 52, 8, 64,
    8, 56, 9, 64,
    8, 60, 9, 68,
    8, 64, 9, 72,
    8, 68, 9, 76,
    8, 72, 9, 80,
    8, 76, 9, 84,
    8, 80, 9, 88,
    8, 84, 9, 92,
    8, 88, 9, 96,
    8, 92, 9, 100,
    8, 96, 9, 104,
    8, 100, 9, 108,
    8, 104, 9, 112,
    8, 108, 9, 116,
    8, 112, 9, 120,
    8, 116, 9, 124,
    8, 120, 10, 8,
    8, 124, 10, 12,
    9, 8, 10, 16,
    9, 12, 10, 20 ]

/-- The body of the loop of `writeBiquadCoeff` for one `i` (lines 1095-1103):
three `aic_writePage` calls.  `table` is the array the pointer argument
points into and `offset` the position it points at; an index outside the
array reads 0. -/
def AudioControlAIC3212.writeBiquadCoeffStep (s : AudioControlAIC3212)
    (coeff_uint32 : List Int) (table : List Int) (offset table_ncol : Int) (i : Int) :
    AudioControlAIC3212 :=
  let page := table.getD (offset + i * table_ncol).toNat 0
  let reg := table.getD (offset + (i * table_ncol + 1)).toNat 0
  let c := coeff_uint32.getD i.toNat 0
  let s1 := (s.aic_writePage page reg (toUInt8 (bitShiftRight c 24))).1
  let s2 := (s1.aic_writePage page (wrapInt32 (reg + 1)) (toUInt8 (bitShiftRight c 16))).1
  (s2.aic_writePage page (wrapInt32 (reg + 2)) (toUInt8 (bitShiftRight c 8))).1

/-- `void writeBiquadCoeff(uint32_t *coeff_uint32, int *page_reg_table,`
`int table_ncol)` (lines 1093-1106): the loop over `i = 0 .. 4`. -/
def AudioControlAIC3212.writeBiquadCoeff (s : AudioControlAIC3212)
    (coeff_uint32 : List Int) (table : List Int) (offset table_ncol : Int) :
    AudioControlAIC3212 :=
  [0, 1, 2, 3, 4].foldl
    (fun t i => t.writeBiquadCoeffStep coeff_uint32 table offset table_ncol i) s

/-- `int setBiquadCoeffOnADC(int chanIndex, int biquadIndex,`
`uint32_t *coeff_uint32)` (lines 1026-1091). -/
def AudioControlAIC3212.setBiquadCoeffOnADC (hdr : AIC3212Header) (s : AudioControlAIC3212)
    (chanIndex biquadIndex : Int) (coeff_uint32 : List Int) : AudioControlAIC3212 × Int :=
  let r := s.aic_readPage 0x00 0x51
  let prev_state := r.2
  let s1 := (r.1.aic_writePage 0x00 0x51 (bitAnd prev_state 0b00111111)).1
  let rows_per_biquad : Int := 5
  let table_ncol : Int := 4
  let base := wrapInt32 (wrapInt32 (biquadIndex * rows_per_biquad) * table_ncol)
  if chanIndex = hdr.BOTH_CHAN then
    let s2 := s1.writeBiquadCoeff coeff_uint32 page_reg_table (0 + base) table_ncol
    let s3 := s2.writeBiquadCoeff coeff_uint32 page_reg_table (1 + base) table_ncol
    ((s3.aic_writePage 0x00 0x51 prev_state).1, 0)
  else if chanIndex = hdr.LEFT_CHAN then
    let s2 := s1.writeBiquadCoeff coeff_uint32 page_reg_table (0 + base) table_ncol
    ((s2.aic_writePage 0x00 0x51 prev_state).1, 0)
  else if chanIndex = hdr.RIGHT_CHAN then
    let s2 := s1.writeBiquadCoeff coeff_uint32 page_reg_table (1 + base) table_ncol
    ((s2.aic_writePage 0x00 0x51 prev_state).1, 0)
  else (s1, -1)

/-- Values for the constants of control_aic3212.h used in the examples: the
mic-bias register is on page 1 (source line 173); the other values are
arbitrary, pairwise different numbers. -/
def exampleHeader : AIC3212Header :=
  { AIC3212_MIC_BIAS_PAGE := 1
    AIC3212_MIC_BIAS_OFF := 0
    AIC3212_MIC_BIAS_1_62 := 1
    AIC3212_MIC_BIAS_2_4 := 2
    AIC3212_MIC_BIAS_3_0 := 3
    AIC3212_MIC_BIAS_3_3 := 4
    BOTH_CHAN := 0
    LEFT_CHAN := 1
    RIGHT_CHAN := 2 }

/-- A codec for the examples with both ADC channels powered (page 0 register
0x51 holds 0b11000000), page 0 register 67 holding 0 and the line-out
registers 18 and 19 of page 1 holding the gain 5 with bit 6 clear; the bus
acknowledges every transmission. -/
def poweredCodec : AudioControlAIC3212 :=
  { wireResults := [], wireRequests := [], wireLog := [], currentPage := 0,
    registers := fun p r =>
      if p = 0 ∧ r = 0x51 then 0b11000000
      else if p = 1 ∧ (r = 18 ∨ r = 19) then 5
      else 0 }

/-! ## Arithmetic helpers -/

theorem wrapInt32_of_isInt32 (x : Int) (h : isInt32 x) : wrapInt32 x = x := by
  unfold isInt32 INT32_MIN INT32_MAX at h
  unfold wrapInt32
  omega

theorem tdiv_two_nonneg (n : Int) (h : 0 ≤ n) : Int.tdiv n 2 = n / 2 := by
  rw [Int.tdiv_eq_ediv h (by decide)]

theorem tdiv_two_neg (n : Int) (h : n < 0) : Int.tdiv n 2 = -((-n) / 2) := by
  have h1 : Int.tdiv n 2 = -(Int.tdiv (-n) 2) := by
    rw [Int.neg_tdiv, Int.neg_neg]
  rw [h1, Int.tdiv_eq_ediv (by omega) (by decide)]

/-! ## Conversion to uint32_t -/

theorem roundHalfEven_cases (x : ℚ) :
    (roundHalfEven x = ⌊x⌋ ∧ x - ⌊x⌋ ≤ 1 / 2) ∨ (roundHalfEven x = ⌊x⌋ + 1 ∧ 1 / 2 ≤ x - ⌊x⌋) := by
  unfold roundHalfEven
  split_ifs with h1 h2 h3
  · exact Or.inl ⟨rfl, le_of_lt h1⟩
  · exact Or.inr ⟨rfl, le_of_lt h2⟩
  · exact Or.inl ⟨rfl, not_lt.mp h2⟩
  · exact Or.inr ⟨rfl, not_lt.mp h1⟩

theorem roundHalfEven_intCast (k : Int) : roundHalfEven (k : ℚ) = k := by
  unfold roundHalfEven
  rw [Int.floor_intCast]
  simp

theorem roundHalfEven_ge_of_le (x : ℚ) (k : Int) (h : (k : ℚ) ≤ x) : k ≤ roundHalfEven x := by
  have hk : k ≤ ⌊x⌋ := Int.le_floor.mpr h
  rcases roundHalfEven_cases x with ⟨h1, _⟩ | ⟨h1, _⟩ <;> omega

theorem roundHalfEven_le_of_le (x : ℚ) (k : Int) (h : x ≤ (k : ℚ)) : roundHalfEven x ≤ k := by
  rcases eq_or_lt_of_le h with h | h
  · rw [h, roundHalfEven_intCast]
  · have hk : ⌊x⌋ < k := Int.floor_lt.mpr h
    rcases roundHalfEven_cases x with ⟨h1, _⟩ | ⟨h1, _⟩ <;> omega

theorem roundHalfEven_neg (x : ℚ) : roundHalfEven (-x) = -roundHalfEven x := by
  by_cases hx : (⌊x⌋ : ℚ) = x
  · rw [← hx, ← Int.cast_neg, roundHalfEven_intCast, roundHalfEven_intCast]
  · have hlt : (⌊x⌋ : ℚ) < x := lt_of_le_of_ne (Int.floor_le x) hx
    have hfl : ⌊-x⌋ = -⌊x⌋ - 1 := by
      rw [Int.floor_eq_iff]
      have := Int.lt_floor_add_one x
      push_cast
      constructor <;> linarith
    unfold roundHalfEven
    rw [hfl]
    push_cast
    split_ifs <;> first | omega | (exfalso; linarith)

theorem ulpExponent_neg (p : Nat) (qmin : Int) (x : ℚ) :
    ulpExponent p qmin (-x) = ulpExponent p qmin x := by
  unfold ulpExponent
  rw [abs_neg]

theorem roundBinary_neg (p : Nat) (qmin : Int) (x : ℚ) :
    roundBinary p qmin (-x) = -roundBinary p qmin x := by
  unfold roundBinary
  rw [ulpExponent_neg, neg_div, roundHalfEven_neg]
  push_cast
  ring

theorem roundBinary_zero (p : Nat) (qmin : Int) : roundBinary p qmin 0 = 0 := by
  unfold roundBinary
  rw [zero_div]
  have : roundHalfEven 0 = 0 := by
    have := roundHalfEven_intCast 0
    simpa using this
  rw [this]
  simp

theorem two_zpow_pos (e : Int) : (0 : ℚ) < (2 : ℚ) ^ e := zpow_pos (by norm_num) e

/-- A power of two with a non-negative exponent is an integer. -/
theorem two_zpow_intCast (d : Int) (hd : 0 ≤ d) :
    (2 : ℚ) ^ d = (((2 : Int) ^ d.toNat : Int) : ℚ) := by
  obtain ⟨n, rfl⟩ := Int.eq_ofNat_of_zero_le hd
  rw [Int.toNat_ofNat, zpow_natCast]
  push_cast
  rfl

/-- A value on a grid at least as coarse as the unit in the last place at `x`
that bounds `x` from above bounds the rounded value. -/
theorem roundBinary_le_grid (p : Nat) (qmin : Int) (x : ℚ) (m e : Int)
    (he : ulpExponent p qmin x ≤ e) (h : x ≤ (m : ℚ) * (2 : ℚ) ^ e) :
    roundBinary p qmin x ≤ (m : ℚ) * (2 : ℚ) ^ e := by
  have hpos := two_zpow_pos (ulpExponent p qmin x)
  have hgrid : (m : ℚ) * (2 : ℚ) ^ e
      = ((m * (2 : Int) ^ (e - ulpExponent p qmin x).toNat : Int) : ℚ)
          * (2 : ℚ) ^ ulpExponent p qmin x := by
    push_cast
    have h2 := two_zpow_intCast (e - ulpExponent p qmin x) (by omega)
    push_cast at h2
    rw [mul_assoc, ← h2, ← zpow_add₀ (by norm_num : (2 : ℚ) ≠ 0)]
    congr 2
    omega
  rw [hgrid] at h ⊢
  unfold roundBinary
  have hdiv : x / (2 : ℚ) ^ ulpExponent p qmin x
      ≤ ((m * (2 : Int) ^ (e - ulpExponent p qmin x).toNat : Int) : ℚ) := by
    rw [div_le_iff₀ hpos]
    exact h
  have := roundHalfEven_le_of_le _ _ hdiv
  have hc : (roundHalfEven (x / (2 : ℚ) ^ ulpExponent p qmin x) : ℚ)
      ≤ ((m * (2 : Int) ^ (e - ulpExponent p qmin x).toNat : Int) : ℚ) := by
    exact_mod_cast this
  exact mul_le_mul_of_nonneg_right hc (le_of_lt hpos)

theorem roundBinary_ge_grid (p : Nat) (qmin : Int) (x : ℚ) (m e : Int)
    (he : ulpExponent p qmin x ≤ e) (h : (m : ℚ) * (2 : ℚ) ^ e ≤ x) :
    (m : ℚ) * (2 : ℚ) ^ e ≤ roundBinary p qmin x := by
  have h1 := roundBinary_le_grid p qmin (-x) (-m) e (by rw [ulpExponent_neg]; exact he)
    (by push_cast; linarith)
  rw [roundBinary_neg] at h1
  push_cast at h1
  linarith

/-- The unit in the last place at a non-zero `x` below `2 ^ (e + p)` is at
most `2 ^ e`, when `2 ^ e` is at least the smallest positive value. -/
theorem ulpExponent_le (p : Nat) (qmin : Int) (x : ℚ) (e : Int) (hx : x ≠ 0)
    (hq : qmin ≤ e) (h : |x| < (2 : ℚ) ^ (e + (p : Int))) : ulpExponent p qmin x ≤ e := by
  unfold ulpExponent
  have hlog : Int.log 2 |x| < e + (p : Int) := by
    have := (Int.lt_zpow_iff_log_lt (R := ℚ) (b := 2) (by norm_num) (abs_pos.mpr hx)).mp
      (by simpa using h)
    exact this
  exact max_le (by omega) hq

/-- A value `m * 2 ^ e` whose significand `m` has at most `p` bits, at an
exponent the format has, is representable: rounding leaves it unchanged. -/
theorem roundBinary_of_representable (p : Nat) (qmin : Int) (m e : Int)
    (hq : qmin ≤ e) (hm : |m| < (2 : Int) ^ p) :
    roundBinary p qmin ((m : ℚ) * (2 : ℚ) ^ e) = (m : ℚ) * (2 : ℚ) ^ e := by
  by_cases hx : (m : ℚ) * (2 : ℚ) ^ e = 0
  · rw [hx, roundBinary_zero]
  · have hlt : |(m : ℚ) * (2 : ℚ) ^ e| < (2 : ℚ) ^ (e + (p : Int)) := by
      rw [abs_mul, abs_of_pos (two_zpow_pos e), zpow_add₀ (by norm_num : (2 : ℚ) ≠ 0), mul_comm]
      apply mul_lt_mul_of_pos_left _ (two_zpow_pos e)
      rw [zpow_natCast]
      have : ((|m| : Int) : ℚ) < (((2 : Int) ^ p : Int) : ℚ) := by exact_mod_cast hm
      push_cast at this
      exact this
    have he := ulpExponent_le p qmin _ e hx hq hlt
    exact le_antisymm (roundBinary_le_grid p qmin _ m e he le_rfl)
      (roundBinary_ge_grid p qmin _ m e he le_rfl)

/-- Integers below `2 ^ 24` in magnitude, scaled by a power of two the format
has, are `float` values. -/
theorem roundFloat_of_representable (m e : Int) (hq : -149 ≤ e) (hm : |m| < 16777216) :
    roundFloat ((m : ℚ) * (2 : ℚ) ^ e) = (m : ℚ) * (2 : ℚ) ^ e :=
  roundBinary_of_representable 24 (-149) m e hq (by norm_num; exact hm)

/-- The integers below `2 ^ 24` in magnitude are `float` values. -/
theorem roundFloat_intCast (m : Int) (hm : |m| < 16777216) : roundFloat (m : ℚ) = (m : ℚ) := by
  have := roundFloat_of_representable m 0 (by norm_num) hm
  simpa using this

theorem float32_ofRat_of_lt (x : ℚ) (h : |roundFloat x| < 2 ^ 128) :
    float32.ofRat x = float32.finite (roundFloat x) := by
  unfold float32.ofRat
  rw [if_pos h]

/-- A value halfway between two integers is rounded to the even one. -/
theorem roundHalfEven_tie_even (x : ℚ) (m : Int) (hx : x = (m : ℚ) + 1 / 2)
    (heven : m % 2 = 0) : roundHalfEven x = m := by
  have hfl : ⌊x⌋ = m := by
    rw [Int.floor_eq_iff, hx]
    constructor <;> linarith
  unfold roundHalfEven
  rw [hfl, hx]
  have h1 : ¬ ((m : ℚ) + 1 / 2 - (m : ℚ) < 1 / 2) := by
    rw [add_sub_cancel_left]; exact lt_irrefl _
  have h2 : ¬ ((1 : ℚ) / 2 < (m : ℚ) + 1 / 2 - (m : ℚ)) := by
    rw [add_sub_cancel_left]; exact lt_irrefl _
  rw [if_neg h1, if_neg h2, if_pos heven]

/-- Evaluation of a rounding at a tie: for `2 ^ (e + 23) ≤ |x| < 2 ^ (e + 24)`
and `x / 2 ^ e` halfway between the even integer `m` and `m + 1`, the `float`
nearest to `x` is `m * 2 ^ e`. -/
theorem roundFloat_eval_tie (x : ℚ) (e m : Int) (hq : -149 ≤ e)
    (hlo : (2 : ℚ) ^ (e + 23) ≤ |x|) (hhi : |x| < (2 : ℚ) ^ (e + 24))
    (hx : x / (2 : ℚ) ^ e = (m : ℚ) + 1 / 2) (heven : m % 2 = 0) :
    roundFloat x = (m : ℚ) * (2 : ℚ) ^ e := by
  have hpos : 0 < |x| := lt_of_lt_of_le (two_zpow_pos _) hlo
  have hl1 : e + 23 ≤ Int.log 2 |x| :=
    (Int.zpow_le_iff_le_log (R := ℚ) (b := 2) (by norm_num) hpos).mp (by simpa using hlo)
  have hl2 : Int.log 2 |x| < e + 24 :=
    (Int.lt_zpow_iff_log_lt (R := ℚ) (b := 2) (by norm_num) hpos).mp (by simpa using hhi)
  have he : ulpExponent 24 (-149) x = e := by
    unfold ulpExponent
    push_cast
    rw [max_eq_left (by omega)]
    omega
  unfold roundFloat roundBinary
  rw [he, roundHalfEven_tie_even _ m hx heven]

/-! ## Ring-buffer occupancy -/

theorem getNumSampsInBuffer_val (s : BufferedSDWriter) (h : indicesInRange s) :
    getNumSampsInBuffer s
      = if s.bufferReadInd ≤ s.bufferWriteInd then s.bufferWriteInd - s.bufferReadInd
        else getLengthOfBuffer s - s.bufferReadInd + s.bufferWriteInd := by
  unfold indicesInRange isInt32 INT32_MIN INT32_MAX at h
  unfold getNumSampsInBuffer
  split
  · exact wrapInt32_of_isInt32 _ (by unfold isInt32 INT32_MIN INT32_MAX; omega)
  · rw [wrapInt32_of_isInt32 (getLengthOfBuffer s - s.bufferReadInd)
      (by unfold isInt32 INT32_MIN INT32_MAX; omega)]
    exact wrapInt32_of_isInt32 _ (by unfold isInt32 INT32_MIN INT32_MAX; omega)

theorem getNumSampsInBuffer_cases (s : BufferedSDWriter) (h : indicesInRange s) :
    (s.bufferReadInd ≤ s.bufferWriteInd
      ∧ getNumSampsInBuffer s = s.bufferWriteInd - s.bufferReadInd)
    ∨ (s.bufferWriteInd < s.bufferReadInd
      ∧ getNumSampsInBuffer s = getLengthOfBuffer s - s.bufferReadInd + s.bufferWriteInd) := by
  rw [getNumSampsInBuffer_val s h]
  by_cases hle : s.bufferReadInd ≤ s.bufferWriteInd
  · left; rw [if_pos hle]; exact ⟨hle, rfl⟩
  · right; rw [if_neg hle]; exact ⟨by omega, rfl⟩

theorem getNumSampsInBuffer_range (s : BufferedSDWriter) (h : indicesInRange s) :
    0 ≤ getNumSampsInBuffer s ∧ getNumSampsInBuffer s < getLengthOfBuffer s := by
  have hc := getNumSampsInBuffer_cases s h
  unfold indicesInRange at h
  omega

/-- Reading one chunk that is available keeps the indices in range, leaves
every field but the read index alone and lowers the occupancy by the chunk. -/
theorem readChunk_occupancy (s : BufferedSDWriter) (h : indicesInRange s)
    (hc : 0 < getWriteSizeSamples s) (havail : getWriteSizeSamples s ≤ getNumSampsInBuffer s) :
    indicesInRange (readChunk s)
    ∧ getWriteSizeSamples (readChunk s) = getWriteSizeSamples s
    ∧ getLengthOfBuffer (readChunk s) = getLengthOfBuffer s
    ∧ (readChunk s).bufferWriteInd = s.bufferWriteInd
    ∧ getNumSampsInBuffer (readChunk s) = getNumSampsInBuffer s - getWriteSizeSamples s := by
  have hr := getNumSampsInBuffer_range s h
  have hv := getNumSampsInBuffer_cases s h
  have hL : getLengthOfBuffer (readChunk s) = getLengthOfBuffer s := rfl
  have hw : (readChunk s).bufferWriteInd = s.bufferWriteInd := rfl
  have hidx : (s.bufferReadInd + getWriteSizeSamples s < getLengthOfBuffer s
        ∧ (readChunk s).bufferReadInd = s.bufferReadInd + getWriteSizeSamples s)
      ∨ (getLengthOfBuffer s ≤ s.bufferReadInd + getWriteSizeSamples s
        ∧ (readChunk s).bufferReadInd
            = s.bufferReadInd + getWriteSizeSamples s - getLengthOfBuffer s) := by
    unfold indicesInRange isInt32 INT32_MIN INT32_MAX at h
    simp only [readChunk]
    rw [wrapInt32_of_isInt32 (getLengthOfBuffer s - s.bufferReadInd)
      (by unfold isInt32 INT32_MIN INT32_MAX; omega)]
    by_cases hlt : getWriteSizeSamples s < getLengthOfBuffer s - s.bufferReadInd
    · left; rw [if_pos hlt]
      exact ⟨by omega, wrapInt32_of_isInt32 _ (by unfold isInt32 INT32_MIN INT32_MAX; omega)⟩
    · right; rw [if_neg hlt]
      refine ⟨by omega, ?_⟩
      rw [wrapInt32_of_isInt32 _ (by unfold isInt32 INT32_MIN INT32_MAX; omega)]
      omega
  have hin : indicesInRange (readChunk s) := by
    unfold indicesInRange at h ⊢
    rw [hL, hw]
    exact ⟨h.1, by omega, h.2.2⟩
  refine ⟨hin, rfl, hL, hw, ?_⟩
  have hv1 := getNumSampsInBuffer_cases _ hin
  rw [hL, hw] at hv1
  unfold indicesInRange at h
  omega

theorem drainLoop_continue (fuel : Nat) (s : BufferedSDWriter) (writes : List Int)
    (h : getWriteSizeSamples s ≤ getNumSampsInBuffer s) :
    drainLoop (fuel + 1) (s, writes)
      = drainLoop fuel (readChunk s, writes ++ [getWriteSizeBytes s]) := by
  simp only [drainLoop, if_pos h]

theorem drainLoop_stop (fuel : Nat) (s : BufferedSDWriter) (writes : List Int)
    (h : getNumSampsInBuffer s < getWriteSizeSamples s) :
    drainLoop (fuel + 1) (s, writes) = (s, writes) := by
  simp only [drainLoop, if_neg (not_le.mpr h)]

/-- The drain loop, given at least as much fuel as there are samples in the
buffer, issues one storage write per whole chunk available and stops with
less than one chunk in the buffer. -/
theorem drainLoop_result (fuel : Nat) :
    ∀ (s : BufferedSDWriter) (writes : List Int), indicesInRange s →
      0 < getWriteSizeSamples s → getNumSampsInBuffer s ≤ (fuel : Int) →
      (drainLoop fuel (s, writes)).2
          = writes ++ List.replicate (getNumSampsInBuffer s / getWriteSizeSamples s).toNat
              (getWriteSizeBytes s)
      ∧ getNumSampsInBuffer (drainLoop fuel (s, writes)).1
          = getNumSampsInBuffer s % getWriteSizeSamples s
      ∧ indicesInRange (drainLoop fuel (s, writes)).1
      ∧ getWriteSizeSamples (drainLoop fuel (s, writes)).1 = getWriteSizeSamples s
      ∧ getLengthOfBuffer (drainLoop fuel (s, writes)).1 = getLengthOfBuffer s
      ∧ (drainLoop fuel (s, writes)).1.bufferWriteInd = s.bufferWriteInd := by
  induction fuel with
  | zero =>
    intro s writes hin hc hfuel
    have hr := getNumSampsInBuffer_range s hin
    have h0 : getNumSampsInBuffer s = 0 := by omega
    simp [drainLoop, h0, hin]
  | succ k ih =>
    intro s writes hin hc hfuel
    have hr := getNumSampsInBuffer_range s hin
    rcases Int.lt_or_le (getNumSampsInBuffer s) (getWriteSizeSamples s) with hlt | hge
    · rw [drainLoop_stop k s writes hlt]
      rw [Int.ediv_eq_zero_of_lt hr.1 hlt, Int.emod_eq_of_lt hr.1 hlt]
      simp [hin]
    · rw [drainLoop_continue k s writes hge]
      obtain ⟨hin1, hc1, hL1, hw1, hocc1⟩ := readChunk_occupancy s hin hc hge
      have hb1 : getWriteSizeBytes (readChunk s) = getWriteSizeBytes s := by
        unfold getWriteSizeBytes; rw [hc1]
      have hfuel1 : getNumSampsInBuffer (readChunk s) ≤ (k : Int) := by
        rw [hocc1]; push_cast at hfuel; omega
      obtain ⟨g1, g2, g3, g4, g5, g6⟩ :=
        ih (readChunk s) (writes ++ [getWriteSizeBytes s]) hin1 (by rw [hc1]; exact hc) hfuel1
      have hdiv : getNumSampsInBuffer s / getWriteSizeSamples s
          = (getNumSampsInBuffer s - getWriteSizeSamples s) / getWriteSizeSamples s + 1 := by
        have : getNumSampsInBuffer s
            = (getNumSampsInBuffer s - getWriteSizeSamples s) + getWriteSizeSamples s := by omega
        conv_lhs => rw [this]
        rw [Int.add_ediv_of_dvd_right (Int.dvd_refl _), Int.ediv_self (by omega)]
      have hmod : getNumSampsInBuffer s % getWriteSizeSamples s
          = (getNumSampsInBuffer s - getWriteSizeSamples s) % getWriteSizeSamples s := by
        rw [Int.sub_emod, Int.emod_self, Int.sub_zero, Int.emod_emod]
      have hq : 0 ≤ (getNumSampsInBuffer s - getWriteSizeSamples s) / getWriteSizeSamples s :=
        Int.ediv_nonneg (by omega) (by omega)
      refine ⟨?_, ?_, g3, by rw [g4, hc1], by rw [g5, hL1], by rw [g6, hw1]⟩
      · rw [g1, hocc1, hc1, hb1, hdiv, Int.toNat_add hq (by decide)]
        simp [List.replicate_succ, List.append_assoc]
      · rw [g2, hocc1, hc1, hmod]

/-- With a positive chunk size, `writeBufferedData` issues one storage write
per whole chunk in the buffer and leaves the remainder. -/
theorem writeBufferedData_result (s : BufferedSDWriter) (writes : List Int)
    (hin : indicesInRange s) (hc : 0 < getWriteSizeSamples s) :
    (writeBufferedData (s, writes)).2
        = writes ++ List.replicate (getNumSampsInBuffer s / getWriteSizeSamples s).toNat
            (getWriteSizeBytes s)
    ∧ getNumSampsInBuffer (writeBufferedData (s, writes)).1
        = getNumSampsInBuffer s % getWriteSizeSamples s
    ∧ getWriteSizeSamples (writeBufferedData (s, writes)).1 = getWriteSizeSamples s := by
  have hr := getNumSampsInBuffer_range s hin
  have hfuel : getNumSampsInBuffer s ≤ ((getNumSampsInBuffer s).toNat : Int) := by
    rw [Int.toNat_of_nonneg hr.1]
  obtain ⟨g1, g2, _, g4, _, _⟩ :=
    drainLoop_result (getNumSampsInBuffer s).toNat s writes hin hc hfuel
  exact ⟨g1, g2, g4⟩

/-- Enqueueing `n` samples into an empty buffer of more than `n` slots writes
all of them and changes nothing but the write index. -/
theorem copyToWriteBuffer_into_empty (s : BufferedSDWriter) (nsamps numChan n : Int)
    (hin : indicesInRange s) (hempty : getNumSampsInBuffer s = 0)
    (hn : nsamps * numChan = n) (hpos : 0 < n) (hL : n < getLengthOfBuffer s) :
    (copyToWriteBuffer s nsamps numChan).2 = n
    ∧ indicesInRange (copyToWriteBuffer s nsamps numChan).1
    ∧ getNumSampsInBuffer (copyToWriteBuffer s nsamps numChan).1 = n
    ∧ getWriteSizeSamples (copyToWriteBuffer s nsamps numChan).1 = getWriteSizeSamples s := by
  have hv := getNumSampsInBuffer_cases s hin
  have hI := hin
  unfold indicesInRange isInt32 INT32_MIN INT32_MAX at hI
  have hroom : wrapInt32 (getNumUnfilledSamplesInBuffer s - 1) = getLengthOfBuffer s - 1 := by
    unfold getNumUnfilledSamplesInBuffer
    rw [hempty, wrapInt32_of_isInt32 (getLengthOfBuffer s - 0)
      (by unfold isInt32 INT32_MIN INT32_MAX; omega)]
    rw [wrapInt32_of_isInt32 _ (by unfold isInt32 INT32_MIN INT32_MAX; omega)]
    omega
  have htotal : wrapInt32 (nsamps * numChan) = n := by
    rw [hn]; exact wrapInt32_of_isInt32 _ (by unfold isInt32 INT32_MIN INT32_MAX; omega)
  have htoEnd : wrapInt32 (getLengthOfBuffer s - s.bufferWriteInd)
      = getLengthOfBuffer s - s.bufferWriteInd :=
    wrapInt32_of_isInt32 _ (by unfold isInt32 INT32_MIN INT32_MAX; omega)
  have hstate : ∃ w1 : Int, (0 ≤ w1 ∧ w1 < getLengthOfBuffer s)
      ∧ ((n < getLengthOfBuffer s - s.bufferWriteInd ∧ w1 = s.bufferWriteInd + n)
        ∨ (getLengthOfBuffer s - s.bufferWriteInd ≤ n
          ∧ w1 = n - (getLengthOfBuffer s - s.bufferWriteInd)))
      ∧ copyToWriteBuffer s nsamps numChan = ({ s with bufferWriteInd := w1 }, n) := by
    simp only [copyToWriteBuffer, hroom, htotal, htoEnd]
    rw [if_pos (by omega : n ≤ getLengthOfBuffer s - 1), if_neg (by omega : ¬ n ≤ 0)]
    by_cases hlt : n < getLengthOfBuffer s - s.bufferWriteInd
    · rw [if_pos hlt, wrapInt32_of_isInt32 (s.bufferWriteInd + n)
        (by unfold isInt32 INT32_MIN INT32_MAX; omega)]
      exact ⟨_, by omega, Or.inl ⟨hlt, rfl⟩, rfl⟩
    · rw [if_neg hlt, wrapInt32_of_isInt32 (n - (getLengthOfBuffer s - s.bufferWriteInd))
        (by unfold isInt32 INT32_MIN INT32_MAX; omega)]
      exact ⟨_, by omega, Or.inr ⟨by omega, rfl⟩, rfl⟩
  obtain ⟨w1, hw1, hcase, hst⟩ := hstate
  rw [hst]
  have hin1 : indicesInRange { s with bufferWriteInd := w1 } := ⟨hin.1, hin.2.1, hw1⟩
  refine ⟨rfl, hin1, ?_, rfl⟩
  show getNumSampsInBuffer { s with bufferWriteInd := w1 } = n
  have hv1 := getNumSampsInBuffer_cases _ hin1
  dsimp only [getLengthOfBuffer] at hv1 hv hI hcase hw1 hL
  omega

/-- C1: for every buffer length L > 0 and indices 0 <= r < L, 0 <= w < L,
getNumSampsInBuffer() returns (w - r) mod L. -/
theorem getNumSampsInBuffer_eq_mod (s : BufferedSDWriter)
    (hL : 0 < getLengthOfBuffer s) (hmax : isInt32 (getLengthOfBuffer s))
    (hr0 : 0 ≤ s.bufferReadInd) (hr : s.bufferReadInd < getLengthOfBuffer s)
    (hw0 : 0 ≤ s.bufferWriteInd) (hw : s.bufferWriteInd < getLengthOfBuffer s) :
    getNumSampsInBuffer s = (s.bufferWriteInd - s.bufferReadInd) % getLengthOfBuffer s := by
  unfold getNumSampsInBuffer
  unfold isInt32 INT32_MIN INT32_MAX at hmax
  split
  · rw [wrapInt32_of_isInt32 _ (by unfold isInt32 INT32_MIN INT32_MAX; omega)]
    rw [Int.emod_eq_of_lt (by omega) (by omega)]
  · rw [wrapInt32_of_isInt32 (getLengthOfBuffer s - s.bufferReadInd)
      (by unfold isInt32 INT32_MIN INT32_MAX; omega)]
    rw [wrapInt32_of_isInt32 _ (by unfold isInt32 INT32_MIN INT32_MAX; omega)]
    have h : (s.bufferWriteInd - s.bufferReadInd) % getLengthOfBuffer s
        = (s.bufferWriteInd - s.bufferReadInd + getLengthOfBuffer s) % getLengthOfBuffer s := by
      rw [Int.add_emod_self]
    rw [h, Int.emod_eq_of_lt (by omega) (by omega)]
    omega

/-- Witness of C1 on a wrapped writer (L = 75000, r = 70000, w = 5). -/
theorem getNumSampsInBuffer_eq_mod_witness :
    (0 < getLengthOfBuffer wrappedWriter ∧ isInt32 (getLengthOfBuffer wrappedWriter)
      ∧ 0 ≤ wrappedWriter.bufferReadInd
      ∧ wrappedWriter.bufferReadInd < getLengthOfBuffer wrappedWriter
      ∧ 0 ≤ wrappedWriter.bufferWriteInd
      ∧ wrappedWriter.bufferWriteInd < getLengthOfBuffer wrappedWriter)
    ∧ getNumSampsInBuffer wrappedWriter
        = (wrappedWriter.bufferWriteInd - wrappedWriter.bufferReadInd)
            % getLengthOfBuffer wrappedWriter
    ∧ getNumSampsInBuffer wrappedWriter = 5005 :=
  ⟨by decide,
   getNumSampsInBuffer_eq_mod wrappedWriter (by decide) (by decide) (by decide) (by decide)
     (by decide) (by decide),
   by decide⟩

/-- C2: when 0 <= bufferReadInd <= L and 0 <= bufferWriteInd <= L with
L = getLengthOfBuffer(), the occupancy lies in 0..L and so does
getNumUnfilledSamplesInBuffer(). -/
theorem getNumSampsInBuffer_bounds (s : BufferedSDWriter)
    (hmax : isInt32 (getLengthOfBuffer s))
    (hr0 : 0 ≤ s.bufferReadInd) (hr : s.bufferReadInd ≤ getLengthOfBuffer s)
    (hw0 : 0 ≤ s.bufferWriteInd) (hw : s.bufferWriteInd ≤ getLengthOfBuffer s) :
    (0 ≤ getNumSampsInBuffer s ∧ getNumSampsInBuffer s ≤ getLengthOfBuffer s)
    ∧ (0 ≤ getNumUnfilledSamplesInBuffer s
        ∧ getNumUnfilledSamplesInBuffer s ≤ getLengthOfBuffer s) := by
  unfold getNumUnfilledSamplesInBuffer getNumSampsInBuffer
  unfold isInt32 INT32_MIN INT32_MAX at hmax
  split
  · rw [wrapInt32_of_isInt32 (s.bufferWriteInd - s.bufferReadInd)
      (by unfold isInt32 INT32_MIN INT32_MAX; omega)]
    rw [wrapInt32_of_isInt32 _ (by unfold isInt32 INT32_MIN INT32_MAX; omega)]
    omega
  · rw [wrapInt32_of_isInt32 (getLengthOfBuffer s - s.bufferReadInd)
      (by unfold isInt32 INT32_MIN INT32_MAX; omega)]
    rw [wrapInt32_of_isInt32 (getLengthOfBuffer s - s.bufferReadInd + s.bufferWriteInd)
      (by unfold isInt32 INT32_MIN INT32_MAX; omega)]
    rw [wrapInt32_of_isInt32 _ (by unfold isInt32 INT32_MIN INT32_MAX; omega)]
    omega

/-- Witness of C2 at the boundary w = L (L = 75000, r = 0): the occupancy
is L and the unfilled count is 0. -/
theorem getNumSampsInBuffer_bounds_witness :
    (isInt32 (getLengthOfBuffer endWriter)
      ∧ 0 ≤ endWriter.bufferReadInd ∧ endWriter.bufferReadInd ≤ getLengthOfBuffer endWriter
      ∧ 0 ≤ endWriter.bufferWriteInd ∧ endWriter.bufferWriteInd ≤ getLengthOfBuffer endWriter)
    ∧ ((0 ≤ getNumSampsInBuffer endWriter
          ∧ getNumSampsInBuffer endWriter ≤ getLengthOfBuffer endWriter)
        ∧ (0 ≤ getNumUnfilledSamplesInBuffer endWriter
          ∧ getNumUnfilledSamplesInBuffer endWriter ≤ getLengthOfBuffer endWriter)) :=
  ⟨by decide,
   getNumSampsInBuffer_bounds endWriter (by decide) (by decide) (by decide) (by decide)
     (by decide)⟩

/-- C3: for L > 0 and indices 0 <= r < L, 0 <= w < L, getNumSampsInBuffer()
is 0 exactly when r = w, is at most L - 1, and therefore
getNumUnfilledSamplesInBuffer() is at least 1. -/
theorem getNumSampsInBuffer_empty_iff (s : BufferedSDWriter)
    (hL : 0 < getLengthOfBuffer s) (hmax : isInt32 (getLengthOfBuffer s))
    (hr0 : 0 ≤ s.bufferReadInd) (hr : s.bufferReadInd < getLengthOfBuffer s)
    (hw0 : 0 ≤ s.bufferWriteInd) (hw : s.bufferWriteInd < getLengthOfBuffer s) :
    (getNumSampsInBuffer s = 0 ↔ s.bufferReadInd = s.bufferWriteInd)
    ∧ getNumSampsInBuffer s ≠ getLengthOfBuffer s
    ∧ getNumSampsInBuffer s ≤ getLengthOfBuffer s - 1
    ∧ 1 ≤ getNumUnfilledSamplesInBuffer s := by
  unfold getNumUnfilledSamplesInBuffer getNumSampsInBuffer
  unfold isInt32 INT32_MIN INT32_MAX at hmax
  split
  · rw [wrapInt32_of_isInt32 (s.bufferWriteInd - s.bufferReadInd)
      (by unfold isInt32 INT32_MIN INT32_MAX; omega)]
    rw [wrapInt32_of_isInt32 _ (by unfold isInt32 INT32_MIN INT32_MAX; omega)]
    omega
  · rw [wrapInt32_of_isInt32 (getLengthOfBuffer s - s.bufferReadInd)
      (by unfold isInt32 INT32_MIN INT32_MAX; omega)]
    rw [wrapInt32_of_isInt32 (getLengthOfBuffer s - s.bufferReadInd + s.bufferWriteInd)
      (by unfold isInt32 INT32_MIN INT32_MAX; omega)]
    rw [wrapInt32_of_isInt32 _ (by unfold isInt32 INT32_MIN INT32_MAX; omega)]
    omega

/-- Witness of C3 on the freshly constructed writer (L = 75000, r = w = 0). -/
theorem getNumSampsInBuffer_empty_iff_witness :
    (0 < getLengthOfBuffer construct ∧ isInt32 (getLengthOfBuffer construct)
      ∧ 0 ≤ construct.bufferReadInd ∧ construct.bufferReadInd < getLengthOfBuffer construct
      ∧ 0 ≤ construct.bufferWriteInd ∧ construct.bufferWriteInd < getLengthOfBuffer construct)
    ∧ ((getNumSampsInBuffer construct = 0 ↔ construct.bufferReadInd = construct.bufferWriteInd)
      ∧ getNumSampsInBuffer construct ≠ getLengthOfBuffer construct
      ∧ getNumSampsInBuffer construct ≤ getLengthOfBuffer construct - 1
      ∧ 1 ≤ getNumUnfilledSamplesInBuffer construct) :=
  ⟨by decide,
   getNumSampsInBuffer_empty_iff construct (by decide) (by decide) (by decide) (by decide)
     (by decide) (by decide)⟩

/-! ## Write size -/

/-- C4: a writer constructed without an explicit write size reports
getWriteSizeBytes() = 512 and getWriteSizeSamples() = 256. -/
theorem construct_writeSize :
    getWriteSizeBytes construct = 512 ∧ getWriteSizeSamples construct = 256 := by
  decide

/-- C5: for every `int` n, after setWriteSizeSamples(n) the value of
getWriteSizeSamples() is even and at least 2; for n >= 2 it is the largest
even number not exceeding n, and for n < 2 it is 2. -/
theorem setWriteSizeSamples_even (s : BufferedSDWriter) (n : Int) (hn : isInt32 n) :
    getWriteSizeSamples (setWriteSizeSamples s n) % 2 = 0
    ∧ 2 ≤ getWriteSizeSamples (setWriteSizeSamples s n)
    ∧ (2 ≤ n → getWriteSizeSamples (setWriteSizeSamples s n) ≤ n
        ∧ ∀ m : Int, m % 2 = 0 → m ≤ n → m ≤ getWriteSizeSamples (setWriteSizeSamples s n))
    ∧ (n < 2 → getWriteSizeSamples (setWriteSizeSamples s n) = 2) := by
  unfold isInt32 INT32_MIN INT32_MAX at hn
  have hv : getWriteSizeSamples (setWriteSizeSamples s n)
      = if 2 ≤ n then n - n % 2 else 2 := by
    simp only [getWriteSizeSamples, setWriteSizeSamples, imax, wrapInt32]
    rcases Int.lt_or_le n 0 with hneg | hpos
    · rw [tdiv_two_neg n hneg]
      split <;> split <;> omega
    · rw [tdiv_two_nonneg n hpos]
      split <;> split <;> omega
  rw [hv]
  refine ⟨?_, ?_, ?_, ?_⟩
  · split <;> omega
  · split <;> omega
  · intro h2
    rw [if_pos h2]
    refine ⟨by omega, ?_⟩
    intro m hm hle
    omega
  · intro h2
    rw [if_neg (by omega)]

/-- Witness of C5 at n = 513, where the stored size is 512. -/
theorem setWriteSizeSamples_even_witness :
    isInt32 513
    ∧ (getWriteSizeSamples (setWriteSizeSamples construct 513) % 2 = 0
      ∧ 2 ≤ getWriteSizeSamples (setWriteSizeSamples construct 513)
      ∧ (2 ≤ (513 : Int) → getWriteSizeSamples (setWriteSizeSamples construct 513) ≤ 513
          ∧ ∀ m : Int, m % 2 = 0 → m ≤ 513
              → m ≤ getWriteSizeSamples (setWriteSizeSamples construct 513))
      ∧ ((513 : Int) < 2 → getWriteSizeSamples (setWriteSizeSamples construct 513) = 2))
    ∧ getWriteSizeSamples (setWriteSizeSamples construct 513) = 512 :=
  ⟨by decide, setWriteSizeSamples_even construct 513 (by decide), by decide⟩

/-- C7, as stated, fails: on a writer configured for 512-byte writes,
setWriteSizeBytes(0) changes getWriteSizeBytes() from 512 to 4. -/
theorem setWriteSizeBytes_zero_changes :
    (0 : Int) ≤ 0
    ∧ getWriteSizeBytes construct = 512
    ∧ getWriteSizeBytes (setWriteSizeBytes construct 0) = 4
    ∧ getWriteSizeBytes (setWriteSizeBytes construct 0) ≠ getWriteSizeBytes construct := by
  decide

/-- C7, amended: for every `int` byte count that is zero or negative,
setWriteSizeBytes does not reject the value but clamps it: afterwards
getWriteSizeSamples() is 2 and getWriteSizeBytes() is 4, whatever size was
configured before. -/
theorem setWriteSizeBytes_nonpos_clamps (s : BufferedSDWriter) (n : Int)
    (hn : isInt32 n) (h : n ≤ 0) :
    getWriteSizeSamples (setWriteSizeBytes s n) = 2
    ∧ getWriteSizeBytes (setWriteSizeBytes s n) = 4 := by
  unfold isInt32 INT32_MIN INT32_MAX at hn
  have hq : Int.tdiv n 2 ≤ 0 ∧ -1073741824 ≤ Int.tdiv n 2 := by
    rcases Int.lt_or_le n 0 with hneg | hpos
    · rw [tdiv_two_neg n hneg]; omega
    · rw [tdiv_two_nonneg n hpos]; omega
  have hv : getWriteSizeSamples (setWriteSizeBytes s n) = 2 := by
    simp only [getWriteSizeSamples, setWriteSizeBytes, setWriteSizeSamples, imax, wrapInt32,
      nBytesPerSample]
    generalize Int.tdiv n 2 = q at hq
    rcases Int.lt_or_le q 0 with hneg | hpos
    · rw [tdiv_two_neg q hneg]
      split <;> omega
    · rw [tdiv_two_nonneg q hpos]
      split <;> omega
  refine ⟨hv, ?_⟩
  unfold getWriteSizeBytes
  rw [hv]
  decide

/-- Witness of the amended C7 at -512 bytes on the default writer. -/
theorem setWriteSizeBytes_nonpos_clamps_witness :
    (isInt32 (-512) ∧ (-512 : Int) ≤ 0)
    ∧ (getWriteSizeSamples (setWriteSizeBytes construct (-512)) = 2
      ∧ getWriteSizeBytes (setWriteSizeBytes construct (-512)) = 4) :=
  ⟨by decide, setWriteSizeBytes_nonpos_clamps construct (-512) (by decide) (by decide)⟩

/-! ## Buffer allocation -/

/-- C8: for every `int` byte count n, after allocateBuffer(n) the capacity
is max(4, n / 2) with truncating division, both indices are 0, the buffer
holds 0 samples, the unfilled count equals the capacity; and with the
default argument the capacity is 75000 samples. -/
theorem allocateBuffer_capacity (s : BufferedSDWriter) (newPtr n : Int) (hn : isInt32 n) :
    getLengthOfBuffer (allocateBuffer s newPtr n).1 = max 4 (Int.tdiv n 2)
    ∧ (allocateBuffer s newPtr n).1.bufferReadInd = 0
    ∧ (allocateBuffer s newPtr n).1.bufferWriteInd = 0
    ∧ getNumSampsInBuffer (allocateBuffer s newPtr n).1 = 0
    ∧ getNumUnfilledSamplesInBuffer (allocateBuffer s newPtr n).1
        = getLengthOfBuffer (allocateBuffer s newPtr n).1
    ∧ getLengthOfBuffer (allocateBufferDefault s newPtr).1 = 75000 := by
  unfold isInt32 INT32_MIN INT32_MAX at hn
  have hq : -1073741824 ≤ Int.tdiv n 2 ∧ Int.tdiv n 2 ≤ 1073741823 := by
    rcases Int.lt_or_le n 0 with hneg | hpos
    · rw [tdiv_two_neg n hneg]; omega
    · rw [tdiv_two_nonneg n hpos]; omega
  have hL : getLengthOfBuffer (allocateBuffer s newPtr n).1 = max 4 (Int.tdiv n 2) := by
    simp only [getLengthOfBuffer, allocateBuffer, resetBuffer, imax, nBytesPerSample]
    split <;> omega
  have hN : getNumSampsInBuffer (allocateBuffer s newPtr n).1 = 0 := by
    simp [getNumSampsInBuffer, allocateBuffer, resetBuffer, wrapInt32]
  refine ⟨hL, rfl, rfl, hN, ?_, ?_⟩
  · unfold getNumUnfilledSamplesInBuffer
    rw [hN, hL, wrapInt32_of_isInt32 _ (by unfold isInt32 INT32_MIN INT32_MAX; omega)]
    omega
  · simp only [getLengthOfBuffer, allocateBufferDefault, allocateBuffer, resetBuffer]
    decide

/-- Witness of C8 at a request of 1001 bytes (capacity 500 samples). -/
theorem allocateBuffer_capacity_witness :
    isInt32 1001
    ∧ (getLengthOfBuffer (allocateBuffer construct 536870912 1001).1 = max 4 (Int.tdiv 1001 2)
      ∧ (allocateBuffer construct 536870912 1001).1.bufferReadInd = 0
      ∧ (allocateBuffer construct 536870912 1001).1.bufferWriteInd = 0
      ∧ getNumSampsInBuffer (allocateBuffer construct 536870912 1001).1 = 0
      ∧ getNumUnfilledSamplesInBuffer (allocateBuffer construct 536870912 1001).1
          = getLengthOfBuffer (allocateBuffer construct 536870912 1001).1
      ∧ getLengthOfBuffer (allocateBufferDefault construct 536870912).1 = 75000)
    ∧ getLengthOfBuffer (allocateBuffer construct 536870912 1001).1 = 500 :=
  ⟨by decide, allocateBuffer_capacity construct 536870912 1001 (by decide), by decide⟩

/-! ## Dithering switch -/

/-- C9, evaluation of the code: enableDithering(false) leaves
getDitheringMethod() = 2 and enableDithering(true) leaves
getDitheringMethod() = 0, the value the member declaration documents as off. -/
theorem enableDithering_inverted (s : BufferedSDWriter) :
    getDitheringMethod (enableDithering s false).1 = 2
    ∧ getDitheringMethod (enableDithering s true).1 = 0
    ∧ getDitheringMethod memberInit = 0 := by
  refine ⟨rfl, rfl, rfl⟩

/-! ## Scenario A: enqueue 1000 samples, drain in 512-byte chunks -/

/-- C6, as stated, fails: on the default 75000-sample buffer, empty, with a
512-byte write size, enqueueing 1000 samples and draining performs three
512-byte storage writes and leaves 232 samples (464 bytes) buffered, not 116
samples (232 bytes). -/
theorem scenarioA_remainder_not_116 :
    getWriteSizeBytes scenarioWriter = 512
    ∧ getNumSampsInBuffer scenarioWriter = 0
    ∧ (copyToWriteBuffer scenarioWriter 1000 1).2 = 1000
    ∧ (writeBufferedData ((copyToWriteBuffer scenarioWriter 1000 1).1, [])).2 = [512, 512, 512]
    ∧ getNumSampsInBuffer (writeBufferedData ((copyToWriteBuffer scenarioWriter 1000 1).1, [])).1
        = 232
    ∧ getNumSampsInBuffer (writeBufferedData ((copyToWriteBuffer scenarioWriter 1000 1).1, [])).1
        ≠ 116
    ∧ getNumSampsInBuffer (writeBufferedData ((copyToWriteBuffer scenarioWriter 1000 1).1, [])).1
        * nBytesPerSample ≠ 232 := by
  decide

/-- C6, amended: with the write size set to 512 bytes and an empty buffer of
more than 1000 samples (indices anywhere in the buffer), after 1000 samples
are enqueued in one copyToWriteBuffer call, draining with writeBufferedData
performs exactly 3 storage writes of 512 bytes each and stops with 232
samples (464 bytes) buffered, less than one chunk of 256 samples. -/
theorem scenarioA_drain (s : BufferedSDWriter) (nsamps numChan : Int)
    (hin : indicesInRange s) (hempty : getNumSampsInBuffer s = 0)
    (hL : 1000 < getLengthOfBuffer s) (hn : nsamps * numChan = 1000) :
    getWriteSizeBytes (setWriteSizeBytes s 512) = 512
    ∧ (copyToWriteBuffer (setWriteSizeBytes s 512) nsamps numChan).2 = 1000
    ∧ (writeBufferedData
          ((copyToWriteBuffer (setWriteSizeBytes s 512) nsamps numChan).1, [])).2
        = [512, 512, 512]
    ∧ getNumSampsInBuffer (writeBufferedData
          ((copyToWriteBuffer (setWriteSizeBytes s 512) nsamps numChan).1, [])).1 = 232
    ∧ getNumSampsInBuffer (writeBufferedData
          ((copyToWriteBuffer (setWriteSizeBytes s 512) nsamps numChan).1, [])).1
        * nBytesPerSample = 464
    ∧ getNumSampsInBuffer (writeBufferedData
          ((copyToWriteBuffer (setWriteSizeBytes s 512) nsamps numChan).1, [])).1
        < getWriteSizeSamples (writeBufferedData
          ((copyToWriteBuffer (setWriteSizeBytes s 512) nsamps numChan).1, [])).1 := by
  have hc : getWriteSizeSamples (setWriteSizeBytes s 512) = 256 := by
    simp only [getWriteSizeSamples, setWriteSizeBytes, setWriteSizeSamples]
    decide
  have hb : getWriteSizeBytes (setWriteSizeBytes s 512) = 512 := by
    unfold getWriteSizeBytes; rw [hc]; decide
  have hin0 : indicesInRange (setWriteSizeBytes s 512) := hin
  have hempty0 : getNumSampsInBuffer (setWriteSizeBytes s 512) = 0 := hempty
  have hL0 : 1000 < getLengthOfBuffer (setWriteSizeBytes s 512) := hL
  obtain ⟨e1, e2, e3, e4⟩ :=
    copyToWriteBuffer_into_empty (setWriteSizeBytes s 512) nsamps numChan 1000 hin0 hempty0 hn
      (by decide) hL0
  have hc1 : getWriteSizeSamples (copyToWriteBuffer (setWriteSizeBytes s 512) nsamps numChan).1
      = 256 := by rw [e4, hc]
  have hb1 : getWriteSizeBytes (copyToWriteBuffer (setWriteSizeBytes s 512) nsamps numChan).1
      = 512 := by unfold getWriteSizeBytes; rw [hc1]; decide
  obtain ⟨d1, d2, d3⟩ :=
    writeBufferedData_result (copyToWriteBuffer (setWriteSizeBytes s 512) nsamps numChan).1 []
      e2 (by rw [hc1]; decide)
  rw [e3, hc1] at d2
  rw [e3, hc1, hb1] at d1
  rw [hc1] at d3
  refine ⟨hb, e1, ?_, ?_, ?_, ?_⟩
  · rw [d1]; decide
  · rw [d2]; decide
  · rw [d2]; decide
  · rw [d2, d3]; decide

/-- Witness of the amended C6: a 1200-sample buffer with both indices at 900,
so the 1000 samples (500 frames of 2 channels) wrap around the end. -/
theorem scenarioA_drain_witness :
    (indicesInRange scenarioWrapWriter ∧ getNumSampsInBuffer scenarioWrapWriter = 0
      ∧ 1000 < getLengthOfBuffer scenarioWrapWriter ∧ (500 : Int) * 2 = 1000)
    ∧ (writeBufferedData
          ((copyToWriteBuffer (setWriteSizeBytes scenarioWrapWriter 512) 500 2).1, [])).2
        = [512, 512, 512]
    ∧ getNumSampsInBuffer (writeBufferedData
          ((copyToWriteBuffer (setWriteSizeBytes scenarioWrapWriter 512) 500 2).1, [])).1 = 232 :=
  ⟨by decide,
   (scenarioA_drain scenarioWrapWriter 500 2 (by decide) (by decide) (by decide)
      (by decide)).2.2.1,
   (scenarioA_drain scenarioWrapWriter 500 2 (by decide) (by decide) (by decide)
      (by decide)).2.2.2.1⟩

/-! ## Unfilled capacity in milliseconds -/

theorem float32_ofRat_eq (x y : ℚ) (h : roundFloat x = y) (hy : |y| < 2 ^ 128) :
    float32.ofRat x = float32.finite y := by
  rw [float32_ofRat_of_lt x (by rw [h]; exact hy), h]

theorem float32_mul_finite (a b : ℚ) :
    float32.mul (float32.finite a) (float32.finite b) = float32.ofRat (a * b) := rfl

theorem begin_upsamp_fac (s : AudioRateInterpolator_F32) (cp n up bs : Int) :
    (s.begin cp n up bs).1.upsamp_fac = up := by
  unfold AudioRateInterpolator_F32.begin
  dsimp only
  split <;> rfl

theorem begin_start_sample_rate (s : AudioRateInterpolator_F32) (cp n up bs : Int) :
    (s.begin cp n up bs).1.start_sample_rate_Hz = s.start_sample_rate_Hz := by
  unfold AudioRateInterpolator_F32.begin
  dsimp only
  split <;> rfl

theorem float32_mul_of_isFloat (fs : ℚ) (up : Int) (hup : isFloat (up : ℚ))
    (hprod : isFloat (fs * (up : ℚ))) :
    float32.mul (float32.finite fs) (float32.ofInt up) = float32.finite (fs * (up : ℚ)) := by
  unfold isFloat at hup hprod
  unfold float32.ofInt
  rw [hup]
  exact hprod

theorem isFloat_of_representable (m e : Int) (hq : -149 ≤ e) (hm : |m| < 16777216)
    (hlt : |(m : ℚ) * (2 : ℚ) ^ e| < 2 ^ 128) : isFloat ((m : ℚ) * (2 : ℚ) ^ e) := by
  unfold isFloat
  exact float32_ofRat_eq _ _ (roundFloat_of_representable m e hq hm) hlt

/-- The `float` product of 44117.6484375 (the `float` nearest to 44117.64706)
and 3 is 132352.9375: the exact product 132352.9453125 lies halfway between
two `float` values and the one with the even significand is taken. -/
theorem float32_mul_teensy_rate_by_3 :
    float32.mul (float32.finite (5647059 / 128)) (float32.ofInt 3)
      = float32.finite (2117647 / 16) := by
  have h3 : float32.ofInt 3 = float32.finite 3 := by
    unfold float32.ofInt
    apply float32_ofRat_eq _ _ _ (by rw [abs_of_pos (by norm_num)]; norm_num)
    have := roundFloat_intCast 3 (by norm_num)
    exact this
  rw [h3, float32_mul_finite]
  apply float32_ofRat_eq _ _ _ (by rw [abs_of_pos (by norm_num)]; norm_num)
  have := roundFloat_eval_tie (5647059 / 128 * 3) (-6) 8470588 (by norm_num)
    (by rw [abs_of_pos (by norm_num)]; norm_num) (by rw [abs_of_pos (by norm_num)]; norm_num)
    (by norm_num) (by decide)
  rw [this]; norm_num

/-- C20: begin(cp, n, up, block_size) returns true exactly when cp is
non-null, cp is not INTERP_FIR_F32_PASSTHRU and n <= 200; when it returns
true the interpolator is armed and enabled, configured_block_size is
block_size and the end sample rate is the start sample rate times up, the
`float` product `start_sample_rate_Hz * (float)upsamp_fac` of the source,
which is the exact product whenever up and the exact product are `float`
values; and the no-argument begin(), which passes the address of the member
array coeff_passthru (an object address, so neither 0 nor 1), returns
true. -/
theorem begin_true_iff (s : AudioRateInterpolator_F32) (cp n up bs blockSamples : Int)
    (hobj0 : s.coeff_passthru ≠ NULL) (hobj1 : s.coeff_passthru ≠ INTERP_FIR_F32_PASSTHRU) :
    ((s.begin cp n up bs).2 = true
        ↔ (cp ≠ NULL ∧ cp ≠ INTERP_FIR_F32_PASSTHRU ∧ n ≤ 200))
    ∧ ((s.begin cp n up bs).2 = true →
        (s.begin cp n up bs).1.is_armed = true
        ∧ (s.begin cp n up bs).1.get_is_enabled = true
        ∧ (s.begin cp n up bs).1.configured_block_size = bs
        ∧ (s.begin cp n up bs).1.start_sample_rate_Hz = s.start_sample_rate_Hz
        ∧ (s.begin cp n up bs).1.end_sample_rate_Hz
            = float32.mul (s.begin cp n up bs).1.start_sample_rate_Hz (float32.ofInt up)
        ∧ (∀ fs : ℚ, s.start_sample_rate_Hz = float32.finite fs →
            isFloat (up : ℚ) → isFloat (fs * (up : ℚ)) →
            (s.begin cp n up bs).1.end_sample_rate_Hz = float32.finite (fs * (up : ℚ))))
    ∧ (s.beginDefault blockSamples).2 = true := by
  have key : ∀ (c m u b : Int),
      (c ≠ NULL ∧ c ≠ INTERP_FIR_F32_PASSTHRU ∧ m ≤ 200 →
        (s.begin c m u b).2 = true
        ∧ (s.begin c m u b).1.is_armed = true
        ∧ (s.begin c m u b).1.get_is_enabled = true
        ∧ (s.begin c m u b).1.configured_block_size = b
        ∧ (s.begin c m u b).1.start_sample_rate_Hz = s.start_sample_rate_Hz
        ∧ (s.begin c m u b).1.end_sample_rate_Hz
            = float32.mul (s.begin c m u b).1.start_sample_rate_Hz (float32.ofInt u))
      ∧ (¬ (c ≠ NULL ∧ c ≠ INTERP_FIR_F32_PASSTHRU ∧ m ≤ 200) →
        (s.begin c m u b).2 = false) := by
    intro c m u b
    constructor
    · intro h
      unfold AudioRateInterpolator_F32.begin
      dsimp only [fir_max_coeffs, INTERP_FIR_MAX_COEFFS]
      rw [if_pos h]
      exact ⟨rfl, rfl, rfl, rfl, rfl, rfl⟩
    · intro h
      unfold AudioRateInterpolator_F32.begin
      dsimp only [fir_max_coeffs, INTERP_FIR_MAX_COEFFS]
      rw [if_neg h]
      rfl
  refine ⟨⟨?_, fun h => ((key cp n up bs).1 h).1⟩, fun h => ?_, ?_⟩
  · intro h
    by_contra hc
    rw [(key cp n up bs).2 hc] at h
    exact Bool.false_ne_true h
  · by_cases hc : cp ≠ NULL ∧ cp ≠ INTERP_FIR_F32_PASSTHRU ∧ n ≤ 200
    · obtain ⟨_, h1, h2, h3, h4, h5⟩ := (key cp n up bs).1 hc
      refine ⟨h1, h2, h3, h4, h5, ?_⟩
      intro fs hfs hup hprod
      rw [h5, h4, hfs]
      exact float32_mul_of_isFloat fs up hup hprod
    · rw [(key cp n up bs).2 hc] at h
      exact absurd h Bool.false_ne_true
  · unfold AudioRateInterpolator_F32.beginDefault
    exact ((key s.coeff_passthru 1 1 blockSamples).1 ⟨hobj0, hobj1, by decide⟩).1

/-- Witness of C20: a constructed interpolator at 44100 Hz whose
coeff_passthru array lives at address 2048, begin(4096, 8, 2, 128); the end
sample rate is 88200 Hz.  At 44117.6484375 Hz and an up-sampling factor of 3
the end sample rate is the `float` 132352.9375. -/
theorem begin_true_iff_witness :
    ((AudioRateInterpolator_F32.construct 2048 0 44100).coeff_passthru ≠ NULL
      ∧ (AudioRateInterpolator_F32.construct 2048 0 44100).coeff_passthru
          ≠ INTERP_FIR_F32_PASSTHRU)
    ∧ ((AudioRateInterpolator_F32.construct 2048 0 44100).begin 4096 8 2 128).2 = true
    ∧ ((AudioRateInterpolator_F32.construct 2048 0 44100).begin 0 8 2 128).2 = false
    ∧ ((AudioRateInterpolator_F32.construct 2048 0 44100).beginDefault 128).2 = true
    ∧ ((AudioRateInterpolator_F32.construct 2048 0 44100).begin 4096 8 2 128).1.end_sample_rate_Hz
        = float32.finite 88200
    ∧ ((AudioRateInterpolator_F32.construct 2048 0 (float32.finite (5647059 / 128))).begin
          4096 8 3 128).1.end_sample_rate_Hz
        = float32.finite (2117647 / 16) := by
  have hteensy : ((AudioRateInterpolator_F32.construct 2048 0
      (float32.finite (5647059 / 128))).begin 4096 8 3 128).1.end_sample_rate_Hz
      = float32.finite (2117647 / 16) := by
    have h := begin_true_iff
      (AudioRateInterpolator_F32.construct 2048 0 (float32.finite (5647059 / 128)))
      4096 8 3 128 128 (by decide) (by decide)
    obtain ⟨_, _, _, hstart, hend, _⟩ := h.2.1 (h.1.mpr (by decide))
    rw [hend, hstart]
    exact float32_mul_teensy_rate_by_3
  have h := begin_true_iff (AudioRateInterpolator_F32.construct 2048 0 44100) 4096 8 2 128 128
    (by decide) (by decide)
  have htrue : ((AudioRateInterpolator_F32.construct 2048 0 44100).begin 4096 8 2 128).2 = true :=
    h.1.mpr (by decide)
  have h2 : isFloat ((2 : Int) : ℚ) := by
    have := isFloat_of_representable 2 0 (by norm_num) (by norm_num)
      (by rw [abs_of_pos (by norm_num)]; norm_num)
    norm_num at this ⊢
    exact this
  have h88200 : isFloat ((44100 : ℚ) * ((2 : Int) : ℚ)) := by
    have := isFloat_of_representable 88200 0 (by norm_num) (by norm_num)
      (by rw [abs_of_pos (by norm_num)]; norm_num)
    norm_num at this ⊢
    exact this
  have hend := (h.2.1 htrue).2.2.2.2.2 44100 rfl h2 h88200
  refine ⟨by decide, htrue, by decide, h.2.2, ?_, hteensy⟩
  rw [hend]
  norm_num

/-- C19, evaluation of the code: after begin with a valid table, end() and
enable(true), get_is_enabled() is true while the coefficient pointer is
NULL; and after a begin with a valid table, a refused begin with 500
coefficients and enable(true), get_is_enabled() is true while n_coeffs is
500, above INTERP_FIR_MAX_COEFFS. -/
theorem enable_ignores_begin_conditions :
    (((AudioRateInterpolator_F32.construct 2048 0 44100).calls
        [InterpolatorCall.begin 4096 8 2 128, InterpolatorCall.end_,
          InterpolatorCall.enable true]).get_is_enabled = true
      ∧ ((AudioRateInterpolator_F32.construct 2048 0 44100).calls
        [InterpolatorCall.begin 4096 8 2 128, InterpolatorCall.end_,
          InterpolatorCall.enable true]).coeff_p = NULL)
    ∧ (((AudioRateInterpolator_F32.construct 2048 0 44100).calls
        [InterpolatorCall.begin 4096 8 2 128, InterpolatorCall.begin 4096 500 2 128,
          InterpolatorCall.enable true]).get_is_enabled = true
      ∧ ((AudioRateInterpolator_F32.construct 2048 0 44100).calls
        [InterpolatorCall.begin 4096 8 2 128, InterpolatorCall.begin 4096 500 2 128,
          InterpolatorCall.enable true]).n_coeffs = 500
      ∧ ¬ ((500 : Int) ≤ INTERP_FIR_MAX_COEFFS)) := by
  decide

/-! ## AudioRateInterpolator_F32: processAudioBlock and update -/

/-- When `processAudioBlock` returns 0 the fields of the output block are
computed from the input block as it was at the call, and no block other than
the output block is written. -/
theorem processAudioBlock_fields (s : AudioRateInterpolator_F32) (heap : BlockHeap)
    (block block_new : Int) (hret : (s.processAudioBlock heap block block_new).2.2 = 0) :
    (s.is_enabled = true ∧ block ≠ NULL ∧ block_new ≠ NULL)
    ∧ ((s.processAudioBlock heap block block_new).2.1 block_new).length
        = wrapInt32 ((heap block).length * s.upsamp_fac)
    ∧ ((s.processAudioBlock heap block block_new).2.1 block_new).id = (heap block).id
    ∧ ((s.processAudioBlock heap block block_new).2.1 block_new).fs_Hz
        = float32.mul (heap block).fs_Hz (float32.ofInt s.upsamp_fac)
    ∧ ∀ q : Int, q ≠ block_new →
        (s.processAudioBlock heap block block_new).2.1 q = heap q := by
  by_cases hg : s.is_enabled = false ∨ block = NULL ∨ block_new = NULL
  · unfold AudioRateInterpolator_F32.processAudioBlock at hret
    rw [if_pos hg] at hret
    exact absurd hret (by decide : ¬ ((-1 : Int) = 0))
  · have hup : (if (heap block).length ≠ s.configured_block_size then
          (s.begin s.coeff_p s.n_coeffs s.upsamp_fac (heap block).length).1
        else s).upsamp_fac = s.upsamp_fac := by
      split
      · exact begin_upsamp_fac _ _ _ _ _
      · rfl
    have hg3 : s.is_enabled = true ∧ block ≠ NULL ∧ block_new ≠ NULL := by
      refine ⟨?_, fun h => hg (Or.inr (Or.inl h)), fun h => hg (Or.inr (Or.inr h))⟩
      cases he : s.is_enabled
      · exact absurd (Or.inl he) hg
      · rfl
    unfold AudioRateInterpolator_F32.processAudioBlock
    rw [if_neg hg]
    dsimp only
    rw [hup]
    refine ⟨hg3, ?_, ?_, ?_, ?_⟩
    · simp [BlockHeap.write]
    · by_cases hb : block = block_new
      · subst hb; simp [BlockHeap.write]
      · simp [BlockHeap.write, hb]
    · by_cases hb : block = block_new
      · subst hb; simp [BlockHeap.write]
      · simp [BlockHeap.write, hb]
    · intro q hq
      simp [BlockHeap.write, hq]

/-- An enabled interpolator given two non-null blocks returns 0. -/
theorem processAudioBlock_returns_zero (s : AudioRateInterpolator_F32) (heap : BlockHeap)
    (block block_new : Int) (hen : s.get_is_enabled = true) (hb : block ≠ NULL)
    (hbn : block_new ≠ NULL) : (s.processAudioBlock heap block block_new).2.2 = 0 := by
  have hg : ¬ (s.is_enabled = false ∨ block = NULL ∨ block_new = NULL) := by
    rintro (h | h | h)
    · rw [AudioRateInterpolator_F32.get_is_enabled, h] at hen
      exact Bool.false_ne_true hen
    · exact hb h
    · exact hbn h
  unfold AudioRateInterpolator_F32.processAudioBlock
  rw [if_neg hg]

/-- C11: whenever processAudioBlock returns 0 for an input block and an
output block (two blocks), the output block carries the input block's
identifier unchanged, its length is the `int` product
block.length * upsamp_fac (the exact product whenever that fits in 32 bits),
its sample rate is the `float` product block.fs_Hz * upsamp_fac of the source
(the exact product whenever upsamp_fac and the exact product are `float`
values), and the input block's id, length and sample rate are not modified;
the up-sampling factor is not changed by the call. -/
theorem processAudioBlock_output_fields (s : AudioRateInterpolator_F32) (heap : BlockHeap)
    (block block_new : Int) (hret : (s.processAudioBlock heap block block_new).2.2 = 0)
    (hne : block ≠ block_new) :
    ((s.processAudioBlock heap block block_new).2.1 block_new).id
        = ((s.processAudioBlock heap block block_new).2.1 block).id
    ∧ ((s.processAudioBlock heap block block_new).2.1 block_new).length
        = wrapInt32 (((s.processAudioBlock heap block block_new).2.1 block).length
            * (s.processAudioBlock heap block block_new).1.upsamp_fac)
    ∧ (isInt32 ((heap block).length * s.upsamp_fac) →
        ((s.processAudioBlock heap block block_new).2.1 block_new).length
          = (heap block).length * s.upsamp_fac)
    ∧ ((s.processAudioBlock heap block block_new).2.1 block_new).fs_Hz
        = float32.mul ((s.processAudioBlock heap block block_new).2.1 block).fs_Hz
            (float32.ofInt (s.processAudioBlock heap block block_new).1.upsamp_fac)
    ∧ (∀ fs : ℚ, (heap block).fs_Hz = float32.finite fs →
        isFloat (s.upsamp_fac : ℚ) → isFloat (fs * (s.upsamp_fac : ℚ)) →
        ((s.processAudioBlock heap block block_new).2.1 block_new).fs_Hz
          = float32.finite (fs * (s.upsamp_fac : ℚ)))
    ∧ (s.processAudioBlock heap block block_new).2.1 block = heap block
    ∧ (s.processAudioBlock heap block block_new).1.upsamp_fac = s.upsamp_fac := by
  obtain ⟨_, hlen, hid, hfs, hrest⟩ := processAudioBlock_fields s heap block block_new hret
  have hin := hrest block hne
  have hup : (s.processAudioBlock heap block block_new).1.upsamp_fac = s.upsamp_fac := by
    unfold AudioRateInterpolator_F32.processAudioBlock
    split
    · rfl
    · dsimp only
      split
      · exact begin_upsamp_fac _ _ _ _ _
      · rfl
  refine ⟨?_, ?_, ?_, ?_, ?_, hin, hup⟩
  · rw [hid, hin]
  · rw [hlen, hin, hup]
  · intro hfit
    rw [hlen, wrapInt32_of_isInt32 _ hfit]
  · rw [hfs, hin, hup]
  · intro fs hfin hfup hprod
    rw [hfs, hfin]
    exact float32_mul_of_isFloat fs s.upsamp_fac hfup hprod

/-- Witness of C11: input block at 8192 (128 samples, 44100 Hz, id 7), output
block at 12288, up-sampling factor 2: the output block has id 7, 256 samples
and 88200 Hz.  With an input block at 44117.6484375 Hz and an up-sampling
factor of 3 the output block's sample rate is the `float` 132352.9375. -/
theorem processAudioBlock_output_fields_witness :
    ((exampleInterpolator.processAudioBlock exampleHeap 8192 12288).2.2 = 0
      ∧ (8192 : Int) ≠ 12288)
    ∧ ((exampleInterpolator.processAudioBlock exampleHeap 8192 12288).2.1 12288).id = 7
    ∧ ((exampleInterpolator.processAudioBlock exampleHeap 8192 12288).2.1 12288).length = 256
    ∧ ((exampleInterpolator.processAudioBlock exampleHeap 8192 12288).2.1 12288).fs_Hz
        = float32.finite 88200
    ∧ (exampleInterpolator.processAudioBlock exampleHeap 8192 12288).2.1 8192
        = exampleHeap 8192
    ∧ ((teensyInterpolator.processAudioBlock teensyHeap 8192 12288).2.1 12288).fs_Hz
        = float32.finite (2117647 / 16) := by
  have hteensy : ((teensyInterpolator.processAudioBlock teensyHeap 8192 12288).2.1 12288).fs_Hz
      = float32.finite (2117647 / 16) := by
    have h := processAudioBlock_output_fields teensyInterpolator teensyHeap 8192 12288
      (by decide) (by decide)
    have hup : teensyInterpolator.upsamp_fac = 3 := by decide
    rw [h.2.2.2.1, h.2.2.2.2.2.1, h.2.2.2.2.2.2, hup]
    exact float32_mul_teensy_rate_by_3
  have h := processAudioBlock_output_fields exampleInterpolator exampleHeap 8192 12288
    (by decide) (by decide)
  have hup : exampleInterpolator.upsamp_fac = 2 := by decide
  have h2 : isFloat (exampleInterpolator.upsamp_fac : ℚ) := by
    rw [hup]
    have := isFloat_of_representable 2 0 (by norm_num) (by norm_num)
      (by rw [abs_of_pos (by norm_num)]; norm_num)
    norm_num at this ⊢
    exact this
  have h88200 : isFloat ((44100 : ℚ) * (exampleInterpolator.upsamp_fac : ℚ)) := by
    rw [hup]
    have := isFloat_of_representable 88200 0 (by norm_num) (by norm_num)
      (by rw [abs_of_pos (by norm_num)]; norm_num)
    norm_num at this ⊢
    exact this
  have hfs := h.2.2.2.2.1 44100 rfl h2 h88200
  refine ⟨⟨by decide, by decide⟩, by decide, by decide, ?_, h.2.2.2.2.2.1, hteensy⟩
  rw [hfs, hup]
  norm_num

/-- C12, what the code does: for every enabled interpolator with
upsamp_fac >= 1 and every input block whose length is at most the block
capacity, processAudioBlock returns 0 and gives the output block the length
block.length * upsamp_fac, with no comparison against the capacity: whenever
that product exceeds the capacity, which takes upsamp_fac >= 2 (a full block
and any upsamp_fac >= 2 will do), the output block's length exceeds the
capacity. -/
theorem processAudioBlock_length_exceeds_capacity (s : AudioRateInterpolator_F32)
    (heap : BlockHeap) (block block_new capacity : Int)
    (hen : s.get_is_enabled = true) (hb : block ≠ NULL) (hbn : block_new ≠ NULL)
    (hup : 1 ≤ s.upsamp_fac) (hlen : (heap block).length ≤ capacity)
    (hfit : isInt32 ((heap block).length * s.upsamp_fac))
    (hover : capacity < (heap block).length * s.upsamp_fac) :
    (s.processAudioBlock heap block block_new).2.2 = 0
    ∧ ((s.processAudioBlock heap block block_new).2.1 block_new).length
        = (heap block).length * s.upsamp_fac
    ∧ capacity < ((s.processAudioBlock heap block block_new).2.1 block_new).length
    ∧ 2 ≤ s.upsamp_fac := by
  have hret := processAudioBlock_returns_zero s heap block block_new hen hb hbn
  obtain ⟨_, hl, _, _, _⟩ := processAudioBlock_fields s heap block block_new hret
  have hval : ((s.processAudioBlock heap block block_new).2.1 block_new).length
      = (heap block).length * s.upsamp_fac := by
    rw [hl]
    exact wrapInt32_of_isInt32 _ hfit
  refine ⟨hret, hval, by rw [hval]; exact hover, ?_⟩
  by_contra h2
  have h1 : s.upsamp_fac = 1 := by omega
  rw [h1, Int.mul_one] at hover
  omega

/-- Witness of C12: the interpolator after begin(cp, 8, 2, 128), a full
input block of 128 samples, capacity 128: the output block's length is
256. -/
theorem processAudioBlock_length_exceeds_capacity_witness :
    (exampleInterpolator.get_is_enabled = true ∧ (8192 : Int) ≠ NULL ∧ (12288 : Int) ≠ NULL
      ∧ 1 ≤ exampleInterpolator.upsamp_fac
      ∧ (exampleHeap 8192).length ≤ 128
      ∧ isInt32 ((exampleHeap 8192).length * exampleInterpolator.upsamp_fac)
      ∧ 128 < (exampleHeap 8192).length * exampleInterpolator.upsamp_fac)
    ∧ ((exampleInterpolator.processAudioBlock exampleHeap 8192 12288).2.1 12288).length = 256
    ∧ (128 : Int)
        < ((exampleInterpolator.processAudioBlock exampleHeap 8192 12288).2.1 12288).length :=
  ⟨by decide, by decide,
   (processAudioBlock_length_exceeds_capacity exampleInterpolator exampleHeap 8192 12288 128
      (by decide) (by decide) (by decide) (by decide) (by decide) (by decide)
      (by decide)).2.2.1⟩

/-- C13: on every path through update (disabled, no input, null
coefficients, pass-through, output allocation failed, normal filtering) the
blocks released are exactly the blocks obtained by receiveReadOnly_f32 or
allocate_f32, each once, and the null pointer is never released; a block is
transmitted only on the pass-through and normal paths; when the allocation
of the output block fails the input block is released and nothing is
transmitted. -/
theorem update_releases_what_it_obtains (s : AudioRateInterpolator_F32) (heap : BlockHeap)
    (received allocated : Int) :
    (releasedBlocks (s.update heap received allocated).2.2).Perm
        (obtainedBlocks (s.update heap received allocated).2.2)
    ∧ NULL ∉ releasedBlocks (s.update heap received allocated).2.2
    ∧ (s.is_enabled = false → (s.update heap received allocated).2.2 = [])
    ∧ (s.is_enabled = true → received = NULL →
        (s.update heap received allocated).2.2 = [StreamCall.receiveReadOnly NULL])
    ∧ (s.is_enabled = true → received ≠ NULL → s.coeff_p = NULL →
        (s.update heap received allocated).2.2
          = [StreamCall.receiveReadOnly received, StreamCall.release received])
    ∧ (s.is_enabled = true → received ≠ NULL → s.coeff_p = INTERP_FIR_F32_PASSTHRU →
        (s.update heap received allocated).2.2
          = [StreamCall.receiveReadOnly received,
              StreamCall.transmit received 0 (heap received), StreamCall.release received])
    ∧ (s.is_enabled = true → received ≠ NULL → s.coeff_p ≠ NULL →
        s.coeff_p ≠ INTERP_FIR_F32_PASSTHRU → allocated = NULL →
        (s.update heap received allocated).2.2
          = [StreamCall.receiveReadOnly received, StreamCall.allocate NULL,
              StreamCall.release received]
        ∧ transmittedBlocks (s.update heap received allocated).2.2 = [])
    ∧ (s.is_enabled = true → received ≠ NULL → s.coeff_p ≠ NULL →
        s.coeff_p ≠ INTERP_FIR_F32_PASSTHRU → allocated ≠ NULL →
        (s.update heap received allocated).2.2
          = [StreamCall.receiveReadOnly received, StreamCall.allocate allocated,
              StreamCall.transmit allocated 0
                ((s.processAudioBlock heap received allocated).2.1 allocated),
              StreamCall.release allocated, StreamCall.release received])
    ∧ (transmittedBlocks (s.update heap received allocated).2.2 ≠ [] →
        s.is_enabled = true ∧ received ≠ NULL ∧ s.coeff_p ≠ NULL
        ∧ (s.coeff_p = INTERP_FIR_F32_PASSTHRU ∨ allocated ≠ NULL)) := by
  have h01 : INTERP_FIR_F32_PASSTHRU ≠ NULL := by decide
  by_cases hen : s.is_enabled = false
  · have ht : (s.update heap received allocated).2.2 = [] := by
      unfold AudioRateInterpolator_F32.update
      rw [if_pos hen]
    rw [ht]
    simp [releasedBlocks, obtainedBlocks, transmittedBlocks, hen]
  have hen1 : s.is_enabled = true := by
    cases he : s.is_enabled
    · exact absurd he hen
    · rfl
  by_cases hrec : received = NULL
  · have ht : (s.update heap received allocated).2.2 = [StreamCall.receiveReadOnly NULL] := by
      unfold AudioRateInterpolator_F32.update
      rw [if_neg hen]
      dsimp only
      rw [if_pos hrec, hrec]
    rw [ht]
    simp [releasedBlocks, obtainedBlocks, transmittedBlocks, hen1, hrec]
  by_cases hnull : s.coeff_p = NULL
  · have ht : (s.update heap received allocated).2.2
        = [StreamCall.receiveReadOnly received, StreamCall.release received] := by
      unfold AudioRateInterpolator_F32.update
      rw [if_neg hen]
      dsimp only
      rw [if_neg hrec, if_pos hnull]
    rw [ht]
    simp [releasedBlocks, obtainedBlocks, transmittedBlocks, hen1, hrec, hnull, Ne.symm hrec,
      h01.symm]
  by_cases hpass : s.coeff_p = INTERP_FIR_F32_PASSTHRU
  · have ht : (s.update heap received allocated).2.2
        = [StreamCall.receiveReadOnly received,
            StreamCall.transmit received 0 (heap received), StreamCall.release received] := by
      unfold AudioRateInterpolator_F32.update
      rw [if_neg hen]
      dsimp only
      rw [if_neg hrec, if_neg hnull, if_pos hpass]
    rw [ht]
    simp [releasedBlocks, obtainedBlocks, transmittedBlocks, hen1, hrec, hpass, Ne.symm hrec,
      h01]
  by_cases halloc : allocated = NULL
  · have ht : (s.update heap received allocated).2.2
        = [StreamCall.receiveReadOnly received, StreamCall.allocate NULL,
            StreamCall.release received] := by
      unfold AudioRateInterpolator_F32.update
      rw [if_neg hen]
      dsimp only
      rw [if_neg hrec, if_neg hnull, if_neg hpass, if_pos halloc, halloc]
    rw [ht]
    simp [releasedBlocks, obtainedBlocks, transmittedBlocks, hen1, hrec, hnull, hpass, halloc,
      Ne.symm hrec]
  · have ht : (s.update heap received allocated).2.2
        = [StreamCall.receiveReadOnly received, StreamCall.allocate allocated,
            StreamCall.transmit allocated 0
              ((s.processAudioBlock heap received allocated).2.1 allocated),
            StreamCall.release allocated, StreamCall.release received] := by
      unfold AudioRateInterpolator_F32.update
      rw [if_neg hen]
      dsimp only
      rw [if_neg hrec, if_neg hnull, if_neg hpass, if_neg halloc]
    rw [ht]
    simp [releasedBlocks, obtainedBlocks, transmittedBlocks, hen1, hrec, hnull, hpass, halloc,
      Ne.symm hrec, Ne.symm halloc]
    exact List.Perm.swap _ _ _

/-! ## AudioSynthWaveform_F32: block identifiers -/

/-- One `update` advances the counter by one and transmits either nothing
or one block, whose identifier is the new counter. -/
theorem synth_update_step (s : AudioSynthWaveform_F32) (heap : BlockHeap)
    (received allocated : Int)
    (h0 : 0 ≤ s.block_counter) (hmax : s.block_counter + 1 < 4294967296) :
    (s.update heap received allocated).1.block_counter = s.block_counter + 1
    ∧ (allocated = NULL → transmittedBlocks (s.update heap received allocated).2.2 = [])
    ∧ (allocated ≠ NULL →
        (transmittedBlocks (s.update heap received allocated).2.2).map (fun b => b.id)
          = [s.block_counter + 1]) := by
  have hw : wrapUInt32 (s.block_counter + 1) = s.block_counter + 1 := by
    unfold wrapUInt32; omega
  refine ⟨?_, ?_, ?_⟩
  · unfold AudioSynthWaveform_F32.update
    dsimp only
    split <;> exact hw
  · intro ha
    unfold AudioSynthWaveform_F32.update
    dsimp only
    rw [if_pos ha]
    rfl
  · intro ha
    unfold AudioSynthWaveform_F32.update
    dsimp only
    rw [if_neg ha]
    simp [transmittedBlocks, BlockHeap.write, hw]

/-- The identifiers transmitted by a run are strictly increasing and all
above the initial counter; the call at position `k` transmits at most one
block, with identifier `c0 + (k + 1)`. -/
theorem synth_run_ids (ins : List (Int × Int)) :
    ∀ (s : AudioSynthWaveform_F32) (heap : BlockHeap),
      0 ≤ s.block_counter → s.block_counter + (ins.length : Int) < 4294967296 →
      (s.run heap ins).length = ins.length
      ∧ (∀ (k : Nat) (t : List StreamCall), (s.run heap ins)[k]? = some t →
          ∀ b, b ∈ transmittedBlocks t → b.id = s.block_counter + ((k : Int) + 1))
      ∧ List.Pairwise (fun a b => a < b) (transmittedIds (s.run heap ins))
      ∧ ∀ x, x ∈ transmittedIds (s.run heap ins) → s.block_counter < x := by
  induction ins with
  | nil =>
    intro s heap _ _
    simp [AudioSynthWaveform_F32.run, transmittedIds]
  | cons x rest ih =>
    intro s heap h0 hmax
    have hlen : ((x :: rest).length : Int) = (rest.length : Int) + 1 := by
      simp
    rw [hlen] at hmax
    have hstep := synth_update_step s heap x.1 x.2 h0 (by omega)
    obtain ⟨hc, hnone, hsome⟩ := hstep
    have ih1 := ih (s.update heap x.1 x.2).1 (s.update heap x.1 x.2).2.1
      (by rw [hc]; omega) (by rw [hc]; omega)
    obtain ⟨il, ik, ip, ib⟩ := ih1
    have hrun : s.run heap (x :: rest)
        = (s.update heap x.1 x.2).2.2
          :: AudioSynthWaveform_F32.run (s.update heap x.1 x.2).1
              (s.update heap x.1 x.2).2.1 rest := rfl
    have hids : transmittedIds (s.run heap (x :: rest))
        = (transmittedBlocks (s.update heap x.1 x.2).2.2).map (fun b => b.id)
          ++ transmittedIds (AudioSynthWaveform_F32.run (s.update heap x.1 x.2).1
              (s.update heap x.1 x.2).2.1 rest) := by
      rw [hrun]
      simp [transmittedIds]
    have hhead : (transmittedBlocks (s.update heap x.1 x.2).2.2).map (fun b => b.id) = []
        ∨ (transmittedBlocks (s.update heap x.1 x.2).2.2).map (fun b => b.id)
            = [s.block_counter + 1] := by
      by_cases ha : x.2 = NULL
      · left; rw [hnone ha]; rfl
      · right; exact hsome ha
    refine ⟨?_, ?_, ?_, ?_⟩
    · rw [hrun]; simp [il]
    · intro k t hk b hb
      rw [hrun] at hk
      cases k with
      | zero =>
        simp at hk
        subst hk
        have hmem : b.id ∈ (transmittedBlocks (s.update heap x.1 x.2).2.2).map
            (fun b => b.id) := List.mem_map_of_mem _ hb
        rcases hhead with h | h
        · rw [h] at hmem; simp at hmem
        · rw [h] at hmem
          simp at hmem
          rw [hmem]; simp
      | succ j =>
        simp at hk
        have := ik j t hk b hb
        rw [this, hc]
        push_cast
        omega
    · rw [hids]
      rcases hhead with h | h
      · rw [h]; simpa using ip
      · rw [h]
        simp only [List.singleton_append, List.pairwise_cons]
        refine ⟨?_, ip⟩
        intro y hy
        have := ib y hy
        rw [hc] at this
        exact this
    · intro y hy
      rw [hids] at hy
      rcases List.mem_append.mp hy with h1 | h2
      · rcases hhead with h | h
        · rw [h] at h1; simp at h1
        · rw [h] at h1; simp at h1; omega
      · have := ib y h2
        rw [hc] at this
        omega

/-- C15: for every sequence of update() calls, with any pattern of
allocation results, as long as the counter does not overflow, the block
transmitted by the call at position k (counting from 0, so the (k+1)-th
call) carries id = c0 + (k + 1), where c0 is the initial block counter, and
the ids of successively transmitted blocks are strictly increasing. -/
theorem synth_block_ids_increase (s : AudioSynthWaveform_F32) (heap : BlockHeap)
    (ins : List (Int × Int)) (h0 : 0 ≤ s.block_counter)
    (hmax : s.block_counter + (ins.length : Int) < 4294967296) :
    (s.run heap ins).length = ins.length
    ∧ (∀ (k : Nat) (t : List StreamCall), (s.run heap ins)[k]? = some t →
        ∀ b, b ∈ transmittedBlocks t → b.id = s.block_counter + ((k : Int) + 1))
    ∧ List.Pairwise (fun a b => a < b) (transmittedIds (s.run heap ins)) :=
  ⟨(synth_run_ids ins s heap h0 hmax).1, (synth_run_ids ins s heap h0 hmax).2.1,
    (synth_run_ids ins s heap h0 hmax).2.2.1⟩

/-- Witness of C15: counter 5, three calls of which the second fails to
allocate; the blocks transmitted carry the ids 6 and 8. -/
theorem synth_block_ids_increase_witness :
    (0 ≤ (AudioSynthWaveform_F32.mk 5).block_counter
      ∧ (AudioSynthWaveform_F32.mk 5).block_counter
          + (([(0, 8192), (0, 0), (8192, 12288)] : List (Int × Int)).length : Int)
          < 4294967296)
    ∧ List.Pairwise (fun a b => a < b)
        (transmittedIds ((AudioSynthWaveform_F32.mk 5).run exampleHeap
          [(0, 8192), (0, 0), (8192, 12288)]))
    ∧ transmittedIds ((AudioSynthWaveform_F32.mk 5).run exampleHeap
          [(0, 8192), (0, 0), (8192, 12288)]) = [6, 8] :=
  ⟨by decide,
   (synth_block_ids_increase (AudioSynthWaveform_F32.mk 5) exampleHeap
      [(0, 8192), (0, 0), (8192, 12288)] (by decide) (by decide)).2.2,
   by decide⟩

/-! ## AudioSynthWaveformQuadrature_F32: failed allocation -/

/-- The calls made by the quadrature `update` when an allocation fails. -/
theorem quadrature_update_failed_calls (s : AudioSynthWaveformQuadrature_F32)
    (heap : BlockHeap) (received allocated allocated2 : Int)
    (hfail : allocated = NULL ∨ allocated2 = NULL) :
    s.update heap received allocated allocated2
      = (s, heap, [StreamCall.receiveReadOnly received, StreamCall.allocate allocated,
          StreamCall.allocate allocated2, StreamCall.release received,
          StreamCall.release allocated, StreamCall.release allocated2]) := by
  unfold AudioSynthWaveformQuadrature_F32.update
  dsimp only
  rw [if_pos hfail]

theorem pool_step_blocks (fanout : Int → Nat) (pool : BlockPool) (c : StreamCall) :
    (BlockPool.step fanout pool c).blocks = pool.blocks := by
  cases c with
  | receiveReadOnly r => rfl
  | allocate r =>
    show (if r = NULL then pool else _).blocks = pool.blocks
    split <;> rfl
  | transmit b i x => rfl
  | release b =>
    show (if b = NULL then pool else _).blocks = pool.blocks
    split <;> rfl

theorem pool_run_blocks (fanout : Int → Nat) (calls : List StreamCall) :
    ∀ pool : BlockPool, (pool.run fanout calls).blocks = pool.blocks := by
  induction calls with
  | nil => intro pool; rfl
  | cons c rest ih =>
    intro pool
    show ((BlockPool.step fanout pool c).run fanout rest).blocks = pool.blocks
    rw [ih, pool_step_blocks]

/-- The pool after the calls of a failed quadrature `update`: the block
allocated is free again and only the count of the modulation input has
changed, by the one reference released. -/
theorem pool_after_failed_calls (pool : BlockPool) (fanout : Int → Nat)
    (received allocated allocated2 : Int)
    (hfail : allocated = NULL ∨ allocated2 = NULL)
    (hheld : received ≠ NULL → 1 ≤ pool.ref_count received)
    (hfree1 : allocated ≠ NULL → pool.ref_count allocated = 0)
    (hfree2 : allocated2 ≠ NULL → pool.ref_count allocated2 = 0) (q : Int) :
    (pool.run fanout [StreamCall.receiveReadOnly received, StreamCall.allocate allocated,
        StreamCall.allocate allocated2, StreamCall.release received,
        StreamCall.release allocated, StreamCall.release allocated2]).ref_count q
      = (if q = received ∧ received ≠ NULL then pool.ref_count q - 1 else pool.ref_count q)
    ∧ (pool.run fanout [StreamCall.receiveReadOnly received, StreamCall.allocate allocated,
        StreamCall.allocate allocated2, StreamCall.release received,
        StreamCall.release allocated, StreamCall.release allocated2]).blocks
      = pool.blocks := by
  have hcase : (allocated = NULL ∧ allocated2 = NULL)
      ∨ (allocated = NULL ∧ allocated2 ≠ NULL) ∨ (allocated ≠ NULL ∧ allocated2 = NULL) := by
    by_cases h1 : allocated = NULL <;> by_cases h2 : allocated2 = NULL
    · exact Or.inl ⟨h1, h2⟩
    · exact Or.inr (Or.inl ⟨h1, h2⟩)
    · exact Or.inr (Or.inr ⟨h1, h2⟩)
    · rcases hfail with h | h
      · exact absurd h h1
      · exact absurd h h2
  constructor
  · rcases hcase with ⟨h1, h2⟩ | ⟨h1, h2⟩ | ⟨h1, h2⟩
    · by_cases hr : received = NULL
      · simp [BlockPool.run, BlockPool.step, hr, h1, h2]
      · by_cases hq : q = received
        · simp [BlockPool.run, BlockPool.step, hr, h1, h2, hq]
        · simp [BlockPool.run, BlockPool.step, hr, h1, h2, hq]
    · have hf := hfree2 h2
      by_cases hr : received = NULL
      · by_cases hq : q = allocated2
        · simp [BlockPool.run, BlockPool.step, hr, h1, h2, hq, hf]
        · simp [BlockPool.run, BlockPool.step, hr, h1, h2, hq]
      · have hh := hheld hr
        have hne : allocated2 ≠ received := by
          intro he; rw [he] at hf; omega
        by_cases hq : q = received
        · simp [BlockPool.run, BlockPool.step, hr, h1, h2, hq, hne, Ne.symm hne]
        · by_cases hq2 : q = allocated2
          · simp [BlockPool.run, BlockPool.step, hr, h1, h2, hq2, hne, hf]
          · simp [BlockPool.run, BlockPool.step, hr, h1, h2, hq, hq2]
    · have hf := hfree1 h1
      by_cases hr : received = NULL
      · by_cases hq : q = allocated
        · simp [BlockPool.run, BlockPool.step, hr, h1, h2, hq, hf]
        · simp [BlockPool.run, BlockPool.step, hr, h1, h2, hq]
      · have hh := hheld hr
        have hne : allocated ≠ received := by
          intro he; rw [he] at hf; omega
        by_cases hq : q = received
        · simp [BlockPool.run, BlockPool.step, hr, h1, h2, hq, hne, Ne.symm hne]
        · by_cases hq2 : q = allocated
          · simp [BlockPool.run, BlockPool.step, hr, h1, h2, hq2, hne, hf]
          · simp [BlockPool.run, BlockPool.step, hr, h1, h2, hq, hq2]
  · exact pool_run_blocks fanout _ pool

/-- Releasing the last reference to a block adds it to the free set: the
free count grows by the number of times the pool lists the block. -/
theorem freeCount_after_last_release (blocks : List Int) (f g : Int → Nat) (r : Int)
    (hr : f r = 1) (hg : ∀ q : Int, g q = if q = r then f q - 1 else f q) :
    (blocks.filter (fun b => decide (g b = 0))).length
      = (blocks.filter (fun b => decide (f b = 0))).length + blocks.count r := by
  induction blocks with
  | nil => rfl
  | cons b rest ih =>
    by_cases hb : b = r
    · have hgb : g b = 0 := by rw [hg b, if_pos hb, hb, hr]
      have hfb : ¬ (f b = 0) := by rw [hb, hr]; decide
      rw [List.filter_cons_of_pos (by simpa using hgb),
        List.filter_cons_of_neg (by simpa using hfb), List.length_cons, ih, hb,
        List.count_cons_self]
      omega
    · have hgb : g b = f b := by rw [hg b, if_neg hb]
      have hcount : (b :: rest).count r = rest.count r :=
        List.count_cons_of_ne (fun h => hb h.symm) rest
      rw [hcount]
      by_cases h0 : f b = 0
      · rw [List.filter_cons_of_pos (by simpa [hgb] using h0),
          List.filter_cons_of_pos (by simpa using h0), List.length_cons, List.length_cons, ih]
        omega
      · rw [List.filter_cons_of_neg (by simpa [hgb] using h0),
          List.filter_cons_of_neg (by simpa using h0), ih]

/-- C14, as stated, fails in its last clause: with a modulation input whose
block has a single owner, a first allocation that succeeds and a second
that fails, the pool has 1 free block before the call and 2 after it. -/
theorem quadrature_failed_update_frees_input :
    ((12288 : Int) ≠ NULL ∧ (0 : Int) = NULL)
    ∧ examplePool.freeCount = 1
    ∧ (examplePool.run (fun _ => 1)
        ((AudioSynthWaveformQuadrature_F32.mk 5).update exampleHeap 8192 12288 0).2.2).freeCount
        = 2
    ∧ (examplePool.run (fun _ => 1)
        ((AudioSynthWaveformQuadrature_F32.mk 5).update exampleHeap 8192 12288 0).2.2).freeCount
        ≠ examplePool.freeCount := by
  decide

/-- C14, amended: in AudioSynthWaveformQuadrature_F32::update, if either of
the two output-block allocations fails, nothing is transmitted on either
output, the block counter is left unchanged, and every block that was
actually obtained is released exactly once (the null pointers are passed to
release as well); so the block that did allocate is free again and the
reference count of every block but the modulation input is what it was
before the call.  The modulation input loses the one reference the node
held: the pool's free count is the same after the call as before it
whenever there is no modulation input or its block has another owner, and
it is one higher when the node held the last reference to a block that the
pool lists once. -/
theorem quadrature_update_failed_allocation (s : AudioSynthWaveformQuadrature_F32)
    (heap : BlockHeap) (pool : BlockPool) (fanout : Int → Nat)
    (received allocated allocated2 : Int)
    (hfail : allocated = NULL ∨ allocated2 = NULL)
    (hheld : received ≠ NULL → 1 ≤ pool.ref_count received)
    (hfree1 : allocated ≠ NULL → pool.ref_count allocated = 0)
    (hfree2 : allocated2 ≠ NULL → pool.ref_count allocated2 = 0) :
    transmittedBlocks (s.update heap received allocated allocated2).2.2 = []
    ∧ (s.update heap received allocated allocated2).1.block_counter = s.block_counter
    ∧ ((releasedBlocks (s.update heap received allocated allocated2).2.2).filter
          (fun b => decide (b ≠ NULL))).Perm
        (obtainedBlocks (s.update heap received allocated allocated2).2.2)
    ∧ (∀ q : Int,
        (pool.run fanout (s.update heap received allocated allocated2).2.2).ref_count q
          = if q = received ∧ received ≠ NULL then pool.ref_count q - 1
            else pool.ref_count q)
    ∧ (pool.run fanout (s.update heap received allocated allocated2).2.2).blocks = pool.blocks
    ∧ (received = NULL ∨ 2 ≤ pool.ref_count received →
        (pool.run fanout (s.update heap received allocated allocated2).2.2).freeCount
          = pool.freeCount)
    ∧ (received ≠ NULL → pool.ref_count received = 1 → pool.blocks.count received = 1 →
        (pool.run fanout (s.update heap received allocated allocated2).2.2).freeCount
          = pool.freeCount + 1) := by
  rw [quadrature_update_failed_calls s heap received allocated allocated2 hfail]
  have hpool := pool_after_failed_calls pool fanout received allocated allocated2 hfail hheld
    hfree1 hfree2
  refine ⟨rfl, rfl, ?_, fun q => (hpool q).1, (hpool 0).2, ?_, ?_⟩
  · by_cases hr : received = NULL <;> by_cases h1 : allocated = NULL
      <;> by_cases h2 : allocated2 = NULL
      <;> simp [releasedBlocks, obtainedBlocks, hr, h1, h2]
  · intro hshared
    unfold BlockPool.freeCount
    rw [(hpool 0).2]
    congr 1
    apply List.filter_congr
    intro b _
    rw [(hpool b).1]
    by_cases hb : b = received ∧ received ≠ NULL
    · rw [if_pos hb]
      rcases hshared with h | h
      · exact absurd h hb.2
      · rw [hb.1]
        have h1 : ¬ (pool.ref_count received - 1 = 0) := by omega
        have h2 : ¬ (pool.ref_count received = 0) := by omega
        simp [h1, h2]
    · rw [if_neg hb]
  · intro hr hlast honce
    unfold BlockPool.freeCount
    rw [(hpool 0).2]
    have h := freeCount_after_last_release pool.blocks pool.ref_count
      (pool.run fanout [StreamCall.receiveReadOnly received, StreamCall.allocate allocated,
        StreamCall.allocate allocated2, StreamCall.release received,
        StreamCall.release allocated, StreamCall.release allocated2]).ref_count received hlast
      (by
        intro q
        rw [(hpool q).1]
        by_cases hq : q = received
        · rw [if_pos ⟨hq, hr⟩, if_pos hq]
        · rw [if_neg (fun h => hq h.1), if_neg hq])
    rw [h, honce]

/-- Witness of the amended C14: the first allocation succeeds, the second
fails; with a modulation input shared with another owner the free count is
unchanged, and with a modulation input whose last reference the node holds
(the pool of the examples) it is one higher. -/
theorem quadrature_update_failed_allocation_witness :
    ((12288 : Int) = NULL ∨ (0 : Int) = NULL)
    ∧ transmittedBlocks
        ((AudioSynthWaveformQuadrature_F32.mk 5).update exampleHeap 8192 12288 0).2.2 = []
    ∧ ((AudioSynthWaveformQuadrature_F32.mk 5).update exampleHeap 8192 12288 0).1.block_counter
        = 5
    ∧ ((BlockPool.mk [8192, 12288] (fun q => if q = 8192 then 2 else 0)).run (fun _ => 1)
        ((AudioSynthWaveformQuadrature_F32.mk 5).update exampleHeap 8192 12288 0).2.2).freeCount
        = (BlockPool.mk [8192, 12288] (fun q => if q = 8192 then 2 else 0)).freeCount
    ∧ (examplePool.run (fun _ => 1)
        ((AudioSynthWaveformQuadrature_F32.mk 5).update exampleHeap 8192 12288 0).2.2).freeCount
        = examplePool.freeCount + 1 :=
  ⟨by decide, by decide, by decide,
   (quadrature_update_failed_allocation (AudioSynthWaveformQuadrature_F32.mk 5) exampleHeap
      (BlockPool.mk [8192, 12288] (fun q => if q = 8192 then 2 else 0)) (fun _ => 1)
      8192 12288 0 (by decide) (by decide) (by decide) (by decide)).2.2.2.2.2.1
      (Or.inr (by decide)),
   (quadrature_update_failed_allocation (AudioSynthWaveformQuadrature_F32.mk 5) exampleHeap
      examplePool (fun _ => 1) 8192 12288 0 (by decide) (by decide) (by decide)
      (by decide)).2.2.2.2.2.2 (by decide) (by decide) (by decide)⟩

/-! ## AudioControlAIC3212: register writes -/

theorem toUInt8_toUInt8 (x : Int) : toUInt8 (toUInt8 x) = toUInt8 x := by
  unfold toUInt8; omega

theorem toUInt8_of_byte (x : Int) (h0 : 0 ≤ x) (h1 : x < 256) : toUInt8 x = x := by
  unfold toUInt8; omega

theorem toInt8_of_range (x : Int) (h0 : -128 ≤ x) (h1 : x ≤ 127) : toInt8 x = x := by
  unfold toInt8; omega

theorem byteOr_zero_left (x : Int) (h0 : 0 ≤ x) (h1 : x < 256) : byteOr 0 x = x := by
  unfold byteOr
  rw [toUInt8_of_byte x h0 h1]
  have hz : (toUInt8 0).toNat = 0 := by decide
  rw [hz, Nat.zero_or]
  exact Int.toNat_of_nonneg h0

/-- On a bus that acknowledges every transmission, `aic_writePage` selects
the page, stores the byte in the register and returns true. -/
theorem aic_writePage_acked (s : AudioControlAIC3212) (page reg val : Int)
    (hack : s.wireResults = []) (hreg : toUInt8 reg ≠ 0) :
    (s.aic_writePage page reg val).2 = true
    ∧ (s.aic_writePage page reg val).1.registers (toUInt8 page) (toUInt8 reg) = toUInt8 val
    ∧ (s.aic_writePage page reg val).1.currentPage = toUInt8 page
    ∧ (s.aic_writePage page reg val).1.wireLog
        = s.wireLog ++ [(0, toUInt8 page), (toUInt8 reg, toUInt8 val)]
    ∧ (s.aic_writePage page reg val).1.wireResults = [] := by
  simp [AudioControlAIC3212.aic_writePage, AudioControlAIC3212.aic_goToPage,
    AudioControlAIC3212.aic_writeRegister, AudioControlAIC3212.transmitPair, hack,
    toUInt8_toUInt8, hreg]

theorem transmitPair_log (s : AudioControlAIC3212) (reg val : Int) :
    (s.transmitPair reg val).1.wireLog = s.wireLog ++ [(reg, val)]
    ∧ (s.transmitPair reg val).2 = s.wireResults.headD 0 := by
  unfold AudioControlAIC3212.transmitPair
  dsimp only
  split
  · split <;> exact ⟨rfl, rfl⟩
  · exact ⟨rfl, rfl⟩

/-- Whatever the bus answers, `aic_writePage` first transmits the page
selection, and transmits the register write exactly when the page selection
was acknowledged. -/
theorem aic_writePage_log (s : AudioControlAIC3212) (page reg val : Int) :
    (s.aic_writePage page reg val).1.wireLog
      = s.wireLog ++ (if s.wireResults.headD 0 = 0
          then [(0, toUInt8 page), (toUInt8 reg, toUInt8 val)]
          else [(0, toUInt8 page)]) := by
  have hg := transmitPair_log s 0 (toUInt8 (toUInt8 page))
  rw [toUInt8_toUInt8] at hg
  unfold AudioControlAIC3212.aic_writePage AudioControlAIC3212.aic_goToPage
  dsimp only
  rw [toUInt8_toUInt8]
  by_cases h : s.wireResults.headD 0 = 0
  · have h2 : ¬ ((s.transmitPair 0 (toUInt8 page)).2 ≠ 0) := by
      rw [hg.2]; exact not_not.mpr h
    rw [if_neg h2, if_pos h]
    dsimp only
    rw [if_pos rfl]
    unfold AudioControlAIC3212.aic_writeRegister
    dsimp only
    have hw := transmitPair_log (s.transmitPair 0 (toUInt8 page)).1
      (toUInt8 (toUInt8 reg)) (toUInt8 (toUInt8 val))
    rw [toUInt8_toUInt8, toUInt8_toUInt8] at hw ⊢
    split
    · dsimp only
      rw [hw.1, hg.1, List.append_assoc]
      rfl
    · dsimp only
      rw [hw.1, hg.1, List.append_assoc]
      rfl
  · have h2 : (s.transmitPair 0 (toUInt8 page)).2 ≠ 0 := by
      rw [hg.2]; exact h
    rw [if_pos h2, if_neg h]
    dsimp only
    rw [if_neg (by decide)]
    exact hg.1

/-! ## AudioControlAIC3212: input gain -/

theorem applyLimitsOnInputGainSetting_clamp (g : ℚ) :
    applyLimitsOnInputGainSetting g = min (max g 0) (95 / 2)
    ∧ 0 ≤ applyLimitsOnInputGainSetting g ∧ applyLimitsOnInputGainSetting g ≤ 95 / 2 := by
  unfold applyLimitsOnInputGainSetting
  dsimp only
  have h475 : (47.5 : ℚ) = 95 / 2 := by norm_num
  rw [h475]
  by_cases h0 : g < 0
  · rw [if_pos h0, if_neg (by norm_num)]
    rw [max_eq_right (le_of_lt h0), min_eq_left (by norm_num)]
    norm_num
  · rw [if_neg h0]
    have h0' : 0 ≤ g := not_lt.mp h0
    rw [max_eq_left h0']
    by_cases h1 : g > 95 / 2
    · rw [if_pos h1, min_eq_right (le_of_lt h1)]
      norm_num
    · rw [if_neg h1]
      have h1' : g ≤ 95 / 2 := not_lt.mp h1
      rw [min_eq_left h1']
      exact ⟨rfl, h0', h1'⟩

theorem cround_nonneg_range (x : ℚ) (n : Int) (h0 : 0 ≤ x) (h1 : x ≤ (n : ℚ)) :
    0 ≤ cround x ∧ cround x ≤ n := by
  unfold cround
  rw [if_pos h0]
  constructor
  · apply Int.floor_nonneg.mpr
    linarith
  · have : ⌊x + 1 / 2⌋ < n + 1 := by
      rw [Int.floor_lt]
      push_cast
      linarith
    omega

theorem cround_intCast (k : Int) : cround (k : ℚ) = k := by
  unfold cround
  split
  · rw [Int.floor_eq_iff]
    constructor <;> linarith
  · rw [Int.ceil_eq_iff]
    constructor <;> linarith

/-- C16: for every requested gain g and channel index,
setInputGain_dB(g, Ichan) returns g clamped to [0, 47.5] and writes to the
MicPGA volume register (page 1, register 0x3B when Ichan = 0, register 0x3C
otherwise) the integer round(2 * clamped g), which lies in 0..95: the call
has the effect of aic_writePage(1, register, that integer), so on a bus that
acknowledges, the register holds it afterwards; and for g a multiple of 0.5
inside the range the value written is exactly 2g. -/
theorem setInputGain_dB_clamps_and_writes (s : AudioControlAIC3212) (g : ℚ) (Ichan : Int) :
    (s.setInputGain_dB g Ichan).2 = min (max g 0) (95 / 2)
    ∧ (0 ≤ micPgaCode g ∧ micPgaCode g ≤ 95)
    ∧ (s.setInputGain_dB g Ichan).1
        = (s.aic_writePage 1 (if Ichan = 0 then 0x3B else 0x3C) (micPgaCode g)).1
    ∧ (s.wireResults = [] →
        (s.setInputGain_dB g Ichan).1.registers 1 (if Ichan = 0 then 0x3B else 0x3C)
          = micPgaCode g
        ∧ (s.setInputGain_dB g Ichan).1.wireLog
          = s.wireLog ++ [(0, 1), (if Ichan = 0 then 0x3B else 0x3C, micPgaCode g)])
    ∧ (∀ k : Int, g = (k : ℚ) / 2 → 0 ≤ g → g ≤ 95 / 2 →
        micPgaCode g = k ∧ ((micPgaCode g : Int) : ℚ) = 2 * g) := by
  obtain ⟨hclamp, hc0, hc1⟩ := applyLimitsOnInputGainSetting_clamp g
  have hrange : 0 ≤ micPgaCode g ∧ micPgaCode g ≤ 95 := by
    unfold micPgaCode
    rw [← hclamp]
    apply cround_nonneg_range
    · linarith
    · push_cast; linarith
  have hval : byteOr AIC3212_MICPGA_VOLUME_ENABLE
      (toInt8 (cround (applyLimitsOnInputGainSetting g * 2))) = micPgaCode g := by
    have hm : cround (applyLimitsOnInputGainSetting g * 2) = micPgaCode g := by
      unfold micPgaCode; rw [← hclamp, mul_comm]
    rw [hm, toInt8_of_range _ (by omega) (by omega)]
    exact byteOr_zero_left _ hrange.1 (by omega)
  have hstate : (s.setInputGain_dB g Ichan).1
      = (s.aic_writePage 1 (if Ichan = 0 then 0x3B else 0x3C) (micPgaCode g)).1 := by
    unfold AudioControlAIC3212.setInputGain_dB
    dsimp only
    rw [hval]
    by_cases hI : Ichan = 0
    · rw [if_pos hI, if_pos hI]; rfl
    · rw [if_neg hI, if_neg hI]; rfl
  have hret : (s.setInputGain_dB g Ichan).2 = min (max g 0) (95 / 2) := by
    unfold AudioControlAIC3212.setInputGain_dB
    dsimp only
    split <;> exact hclamp
  refine ⟨hret, hrange, hstate, ?_, ?_⟩
  · intro hack
    rw [hstate]
    have hreg : toUInt8 (if Ichan = 0 then 0x3B else 0x3C) = (if Ichan = 0 then 0x3B else 0x3C)
        ∧ toUInt8 (if Ichan = 0 then 0x3B else 0x3C) ≠ 0 := by
      split <;> decide
    have hv : toUInt8 (micPgaCode g) = micPgaCode g :=
      toUInt8_of_byte _ hrange.1 (by omega)
    obtain ⟨_, hr, _, hl, _⟩ := aic_writePage_acked s 1
      (if Ichan = 0 then 0x3B else 0x3C) (micPgaCode g) hack hreg.2
    rw [hreg.1, hv] at hr hl
    have h1 : toUInt8 1 = 1 := by decide
    rw [h1] at hr hl
    exact ⟨hr, hl⟩
  · intro k hk h0 h1
    have hcl : min (max g 0) (95 / 2) = g := by
      rw [max_eq_left h0, min_eq_left h1]
    have hm : micPgaCode g = k := by
      unfold micPgaCode
      rw [hcl, hk]
      have : (2 : ℚ) * ((k : ℚ) / 2) = (k : ℚ) := by ring
      rw [this]
      exact cround_intCast k
    refine ⟨hm, ?_⟩
    rw [hm, hk]; ring

/-! ## AudioControlAIC3212: DAC volume -/

theorem applyLimitsOnVolumeSetting_clamp (v : ℚ) :
    applyLimitsOnVolumeSetting v = max (min v 24) (-127 / 2)
    ∧ -127 / 2 ≤ applyLimitsOnVolumeSetting v ∧ applyLimitsOnVolumeSetting v ≤ 24 := by
  unfold applyLimitsOnVolumeSetting
  dsimp only
  have h635 : (-63.5 : ℚ) = -127 / 2 := by norm_num
  rw [h635]
  by_cases h0 : v > 24
  · rw [if_pos h0, if_neg (by norm_num)]
    rw [min_eq_right (le_of_lt h0), max_eq_left (by norm_num)]
    norm_num
  · rw [if_neg h0]
    have h0' : v ≤ 24 := not_lt.mp h0
    rw [min_eq_left h0']
    by_cases h1 : v < -127 / 2
    · rw [if_pos h1, max_eq_right (le_of_lt h1)]
      norm_num
    · rw [if_neg h1]
      have h1' : -127 / 2 ≤ v := not_lt.mp h1
      rw [max_eq_left h1']
      exact ⟨rfl, h1', h0'⟩

theorem cround_range (x : ℚ) (a b : Int) (ha : (a : ℚ) ≤ x) (hb : x ≤ (b : ℚ)) :
    a ≤ cround x ∧ cround x ≤ b := by
  unfold cround
  split
  · constructor
    · rw [Int.le_floor]; linarith
    · have : ⌊x + 1 / 2⌋ < b + 1 := by
        rw [Int.floor_lt]; push_cast; linarith
      omega
  · constructor
    · have : a - 1 < ⌈x - 1 / 2⌉ := by
        rw [Int.lt_ceil]; push_cast; linarith
      omega
    · rw [Int.ceil_le]; linarith

theorem dacVolumeCode_range (v : ℚ) : -127 ≤ dacVolumeCode v ∧ dacVolumeCode v ≤ 48 := by
  obtain ⟨hclamp, hc0, hc1⟩ := applyLimitsOnVolumeSetting_clamp v
  unfold dacVolumeCode
  rw [← hclamp]
  apply cround_range
  · push_cast; linarith
  · push_cast; linarith

/-- The effect of `volume_dB(v, Ichan)`: the clamped value is returned and
its code is handed to `aic_writePage` for the channel's register. -/
theorem volume_dB_effect (s : AudioControlAIC3212) (v : ℚ) (Ichan : Int) :
    (s.volume_dB v Ichan).2 = max (min v 24) (-127 / 2)
    ∧ (s.volume_dB v Ichan).1
        = (s.aic_writePage 0 (if Ichan = 0 then 0x41 else 0x42) (dacVolumeCode v)).1 := by
  obtain ⟨hclamp, _, _⟩ := applyLimitsOnVolumeSetting_clamp v
  have hr := dacVolumeCode_range v
  have hm : toInt8 (cround (applyLimitsOnVolumeSetting v * 2)) = dacVolumeCode v := by
    have : cround (applyLimitsOnVolumeSetting v * 2) = dacVolumeCode v := by
      unfold dacVolumeCode; rw [← hclamp, mul_comm]
    rw [this]
    exact toInt8_of_range _ (by omega) (by omega)
  constructor
  · unfold AudioControlAIC3212.volume_dB
    dsimp only
    split <;> exact hclamp
  · unfold AudioControlAIC3212.volume_dB
    dsimp only
    rw [hm]
    by_cases hI : Ichan = 0
    · rw [if_pos hI, if_pos hI]; rfl
    · rw [if_neg hI, if_neg hI]; rfl

/-- C17: for every requested volume v and channel index, volume_dB(v, Ichan)
returns v clamped to [-63.5, 24] and writes round(2 * clamped v) to the DAC
volume register (page 0, register 0x41 when Ichan = 0, register 0x42
otherwise): the call has the effect of aic_writePage(0, register, that
integer); the integer lies in -127..48, so the conversion to int8_t leaves it
as it is, and the byte written is its two's complement (the integer itself
when non-negative, the integer plus 256 when negative), which the register
holds afterwards on a bus that acknowledges. -/
theorem volume_dB_clamps_and_writes (s : AudioControlAIC3212) (v : ℚ) (Ichan : Int) :
    (s.volume_dB v Ichan).2 = max (min v 24) (-127 / 2)
    ∧ (s.volume_dB v Ichan).2 = min (max v (-127 / 2)) 24
    ∧ (-127 ≤ dacVolumeCode v ∧ dacVolumeCode v ≤ 48)
    ∧ toInt8 (dacVolumeCode v) = dacVolumeCode v
    ∧ (s.volume_dB v Ichan).1
        = (s.aic_writePage 0 (if Ichan = 0 then 0x41 else 0x42) (dacVolumeCode v)).1
    ∧ toUInt8 (dacVolumeCode v)
        = (if dacVolumeCode v < 0 then dacVolumeCode v + 256 else dacVolumeCode v)
    ∧ (s.wireResults = [] →
        (s.volume_dB v Ichan).1.registers 0 (if Ichan = 0 then 0x41 else 0x42)
          = toUInt8 (dacVolumeCode v)
        ∧ (s.volume_dB v Ichan).1.wireLog
          = s.wireLog ++ [(0, 0), (if Ichan = 0 then 0x41 else 0x42,
              toUInt8 (dacVolumeCode v))]) := by
  obtain ⟨hret, hstate⟩ := volume_dB_effect s v Ichan
  have hr := dacVolumeCode_range v
  refine ⟨hret, ?_, hr, toInt8_of_range _ (by omega) (by omega), hstate, ?_, ?_⟩
  · rw [hret]
    rcases le_total v 24 with h | h
    · rw [min_eq_left h]
      rcases le_total v (-127 / 2) with h2 | h2
      · rw [max_eq_right h2, min_eq_left (by norm_num)]
      · rw [max_eq_left h2, min_eq_left h]
    · rw [min_eq_right h, max_eq_left (by norm_num)]
      rw [max_eq_left (by linarith), min_eq_right h]
  · unfold toUInt8
    split <;> omega
  · intro hack
    rw [hstate]
    have hreg : toUInt8 (if Ichan = 0 then 0x41 else 0x42) = (if Ichan = 0 then 0x41 else 0x42)
        ∧ toUInt8 (if Ichan = 0 then 0x41 else 0x42) ≠ 0 := by
      split <;> decide
    obtain ⟨_, hreg1, _, hl, _⟩ := aic_writePage_acked s 0
      (if Ichan = 0 then 0x41 else 0x42) (dacVolumeCode v) hack hreg.2
    rw [hreg.1] at hreg1 hl
    have h0 : toUInt8 0 = 0 := by decide
    rw [h0] at hreg1 hl
    exact ⟨hreg1, hl⟩

/-- On a bus that acknowledges every transmission and delivers the byte
requested, `aic_readPage` selects the page and returns the register; it
changes no register. -/
theorem aic_readPage_acked (s : AudioControlAIC3212) (page reg : Int)
    (hack : s.wireResults = []) (hreq : s.wireRequests = []) (hreg : toUInt8 reg ≠ 0) :
    (s.aic_readPage page reg).2 = s.registers (toUInt8 page) (toUInt8 reg)
    ∧ (s.aic_readPage page reg).1.registers = s.registers
    ∧ (s.aic_readPage page reg).1.wireResults = []
    ∧ (s.aic_readPage page reg).1.wireRequests = []
    ∧ (s.aic_readPage page reg).1.currentPage = toUInt8 page
    ∧ (s.aic_readPage page reg).1.wireLog = s.wireLog ++ [(0, toUInt8 page)] := by
  simp [AudioControlAIC3212.aic_readPage, AudioControlAIC3212.aic_goToPage,
    AudioControlAIC3212.transmitPair, hack, hreq, toUInt8_toUInt8, hreg]

set_option maxRecDepth 100000 in
/-- Setting bit 7 of a byte leaves its bits 4-2 as they are, and so does
clearing bit 7; a byte OR-ed with `0b0100000000` and converted to `uint8_t`
is the byte itself. -/
theorem byte_bit_facts :
    ∀ c : Fin 256,
      toUInt8 (bitOr 0b10000000 (c.val : Int)) = (c.val : Int) % 128 + 128
      ∧ bitAnd (toUInt8 (bitOr 0b10000000 (c.val : Int))) 0b00011100
          = bitAnd (c.val : Int) 0b00011100
      ∧ toUInt8 (bitOr (c.val : Int) 0b0100000000) = (c.val : Int) := by
  decide

/-! ## AudioControlAIC3212: headset detection -/

/-- C21, evaluation of the code: on a bus that works, enableMicDetect(true)
returns true and writes back to page 0 register 67 the value read with bit 7
set and every other bit as read, so bits 4-2 are those that were read, not
010; enableMicDetect(false) returns false and writes back the value read
with bit 7 cleared. -/
theorem enableMicDetect_keeps_debounce_bits (s : AudioControlAIC3212) (c : Fin 256)
    (hack : s.wireResults = []) (hreq : s.wireRequests = [])
    (hval : s.registers 0 67 = (c.val : Int)) :
    (s.enableMicDetect true).2 = true
    ∧ (s.enableMicDetect true).1.registers 0 67 = (c.val : Int) % 128 + 128
    ∧ bitAnd ((s.enableMicDetect true).1.registers 0 67) 0b00011100
        = bitAnd (c.val : Int) 0b00011100
    ∧ (s.enableMicDetect false).2 = false
    ∧ (s.enableMicDetect false).1.registers 0 67 = toUInt8 (bitAnd 0b01111111 (c.val : Int)) := by
  have h67 : toUInt8 67 ≠ 0 := by decide
  have e67 : toUInt8 67 = 67 := by decide
  have e0 : toUInt8 0 = 0 := by decide
  obtain ⟨hr, _, hack1, _, _, _⟩ := aic_readPage_acked s 0 67 hack hreq h67
  rw [e0, e67, hval] at hr
  have hc : toUInt8 (c.val : Int) = (c.val : Int) :=
    toUInt8_of_byte _ (by omega) (by omega)
  obtain ⟨b1, b2, _⟩ := byte_bit_facts c
  have hon : (s.enableMicDetect true).1.registers 0 67
      = toUInt8 (bitOr 0b10000000 (c.val : Int)) := by
    unfold AudioControlAIC3212.enableMicDetect
    dsimp only
    rw [if_pos rfl, hr, hc]
    have := (aic_writePage_acked (s.aic_readPage 0 67).1 0 67
      (toUInt8 (bitOr 0b10000000 (c.val : Int))) hack1 h67).2.1
    rw [e0, e67, toUInt8_toUInt8] at this
    exact this
  have hoff : (s.enableMicDetect false).1.registers 0 67
      = toUInt8 (bitAnd 0b01111111 (c.val : Int)) := by
    unfold AudioControlAIC3212.enableMicDetect
    dsimp only
    rw [if_neg (by decide), hr, hc]
    have := (aic_writePage_acked (s.aic_readPage 0 67).1 0 67
      (toUInt8 (bitAnd 0b01111111 (c.val : Int))) hack1 h67).2.1
    rw [e0, e67, toUInt8_toUInt8] at this
    exact this
  refine ⟨?_, ?_, ?_, ?_, hoff⟩
  · unfold AudioControlAIC3212.enableMicDetect
    dsimp only
    rw [if_pos rfl]
  · rw [hon, b1]
  · rw [hon, b2]
  · unfold AudioControlAIC3212.enableMicDetect
    dsimp only
    rw [if_neg (by decide)]

/-- Witness of C21: register 67 of page 0 holds 0; enableMicDetect(true)
leaves 0b10000000 there, whose bits 4-2 are 000, where the claim and the
comments of the source ask for 0b10001000. -/
theorem enableMicDetect_keeps_debounce_bits_witness :
    (poweredCodec.wireResults = [] ∧ poweredCodec.wireRequests = []
      ∧ poweredCodec.registers 0 67 = (((0 : Fin 256).val : Nat) : Int))
    ∧ (poweredCodec.enableMicDetect true).1.registers 0 67 = 0b10000000
    ∧ bitAnd ((poweredCodec.enableMicDetect true).1.registers 0 67) 0b00011100 = 0
    ∧ bitAnd ((poweredCodec.enableMicDetect true).1.registers 0 67) 0b00011100 ≠ 0b00001000 :=
  ⟨by decide,
   (enableMicDetect_keeps_debounce_bits poweredCodec 0 (by decide) (by decide)
      (by decide)).2.1,
   by decide, by decide⟩

/-! ## AudioControlAIC3212: biquad coefficients -/

/-- C24, evaluation of the code: on a bus that works, for a channel index
that is none of BOTH_CHAN, LEFT_CHAN, RIGHT_CHAN, setBiquadCoeffOnADC returns
-1 and leaves page 0 register 0x51 holding the value it had with its two
top bits cleared (both ADC channels powered down), not the value it had. -/
theorem setBiquadCoeffOnADC_invalid_channel (hdr : AIC3212Header) (s : AudioControlAIC3212)
    (chanIndex biquadIndex : Int) (coeff_uint32 : List Int)
    (hack : s.wireResults = []) (hreq : s.wireRequests = [])
    (hb : chanIndex ≠ hdr.BOTH_CHAN) (hl : chanIndex ≠ hdr.LEFT_CHAN)
    (hr : chanIndex ≠ hdr.RIGHT_CHAN) :
    (AudioControlAIC3212.setBiquadCoeffOnADC hdr s chanIndex biquadIndex coeff_uint32).2 = -1
    ∧ (AudioControlAIC3212.setBiquadCoeffOnADC hdr s chanIndex biquadIndex coeff_uint32).1.registers
        0 0x51 = toUInt8 (bitAnd (s.registers 0 0x51) 0b00111111) := by
  have h81 : toUInt8 0x51 ≠ 0 := by decide
  have e81 : toUInt8 0x51 = 0x51 := by decide
  have e0 : toUInt8 0 = 0 := by decide
  obtain ⟨hrd, _, hack1, _, _, _⟩ := aic_readPage_acked s 0 0x51 hack hreq h81
  rw [e0, e81] at hrd
  unfold AudioControlAIC3212.setBiquadCoeffOnADC
  dsimp only
  rw [if_neg hb, if_neg hl, if_neg hr, hrd]
  refine ⟨rfl, ?_⟩
  have := (aic_writePage_acked (s.aic_readPage 0 0x51).1 0 0x51
    (bitAnd (s.registers 0 0x51) 0b00111111) hack1 h81).2.1
  rw [e0, e81] at this
  exact this

set_option maxRecDepth 100000 in
/-- Witness of C24: both ADC channels powered (register 0x51 of page 0
holds 0b11000000), channel index 9: the call returns -1 and the register
holds 0 afterwards; with the valid channel index LEFT_CHAN the call returns
0 and the register holds 0b11000000 again. -/
theorem setBiquadCoeffOnADC_invalid_channel_witness :
    (poweredCodec.wireResults = [] ∧ poweredCodec.wireRequests = []
      ∧ (9 : Int) ≠ exampleHeader.BOTH_CHAN ∧ (9 : Int) ≠ exampleHeader.LEFT_CHAN
      ∧ (9 : Int) ≠ exampleHeader.RIGHT_CHAN)
    ∧ poweredCodec.registers 0 0x51 = 0b11000000
    ∧ (AudioControlAIC3212.setBiquadCoeffOnADC exampleHeader poweredCodec 9 0
        [1, 2, 3, 4, 5]).2 = -1
    ∧ (AudioControlAIC3212.setBiquadCoeffOnADC exampleHeader poweredCodec 9 0
        [1, 2, 3, 4, 5]).1.registers 0 0x51 = 0
    ∧ (AudioControlAIC3212.setBiquadCoeffOnADC exampleHeader poweredCodec 9 0
        [1, 2, 3, 4, 5]).1.registers 0 0x51 ≠ poweredCodec.registers 0 0x51
    ∧ (AudioControlAIC3212.setBiquadCoeffOnADC exampleHeader poweredCodec
        exampleHeader.LEFT_CHAN 0 [1, 2, 3, 4, 5]).2 = 0
    ∧ (AudioControlAIC3212.setBiquadCoeffOnADC exampleHeader poweredCodec
        exampleHeader.LEFT_CHAN 0 [1, 2, 3, 4, 5]).1.registers 0 0x51 = 0b11000000 :=
  ⟨by decide, by decide,
   (setBiquadCoeffOnADC_invalid_channel exampleHeader poweredCodec 9 0 [1, 2, 3, 4, 5]
      (by decide) (by decide) (by decide) (by decide) (by decide)).1,
   by decide, by decide, by decide, by decide⟩

/-! ## AudioControlAIC3212: mic bias -/

/-- On a bus that acknowledges, selecting a page and then writing a register
stores the byte in that register of that page. -/
theorem goToPage_writeRegister_acked (s : AudioControlAIC3212) (page reg val : Int)
    (hack : s.wireResults = []) (hreg : toUInt8 reg ≠ 0) :
    ((s.aic_goToPage page).1.aic_writeRegister reg val).1.registers (toUInt8 page)
        (toUInt8 reg) = toUInt8 val
    ∧ ((s.aic_goToPage page).1.aic_writeRegister reg val).1.wireLog
        = s.wireLog ++ [(0, toUInt8 page), (toUInt8 reg, toUInt8 val)] := by
  simp [AudioControlAIC3212.aic_goToPage, AudioControlAIC3212.aic_writeRegister,
    AudioControlAIC3212.transmitPair, hack, hreg]

theorem goToPage_log (s : AudioControlAIC3212) (page : Int) :
    (s.aic_goToPage page).1.wireLog = s.wireLog ++ [(0, toUInt8 page)] := by
  unfold AudioControlAIC3212.aic_goToPage
  dsimp only
  split <;> exact (transmitPair_log s 0 (toUInt8 page)).1

/-- C22, evaluation of the code: on a bus that acknowledges, setMicBias
returns true for each of the five settings and false for any other
argument, for which it transmits the page selection only.  It writes to the
mic-bias register 0b00000100 for 1.62 V, 0b00000101 for 2.4 V and 0 for OFF,
but 0b00010100 (20) for 3.0 V and 0b00010101 (21) for 3.3 V: bytes with bit 4
set, outside the mask 0b00001111, whose two low bits are 00 and 01, not the
voltage codes 2 and 3. -/
theorem setMicBias_register_values (hdr : AIC3212Header) (s : AudioControlAIC3212)
    (other : Int) (hd : hdr.distinct) (hack : s.wireResults = [])
    (hother : other ∉ [hdr.AIC3212_MIC_BIAS_OFF, hdr.AIC3212_MIC_BIAS_1_62,
      hdr.AIC3212_MIC_BIAS_2_4, hdr.AIC3212_MIC_BIAS_3_0, hdr.AIC3212_MIC_BIAS_3_3]) :
    ((AudioControlAIC3212.setMicBias hdr s hdr.AIC3212_MIC_BIAS_1_62).2 = true
      ∧ (AudioControlAIC3212.setMicBias hdr s hdr.AIC3212_MIC_BIAS_1_62).1.registers
          (toUInt8 hdr.AIC3212_MIC_BIAS_PAGE) 0x33 = 0b00000100)
    ∧ ((AudioControlAIC3212.setMicBias hdr s hdr.AIC3212_MIC_BIAS_2_4).2 = true
      ∧ (AudioControlAIC3212.setMicBias hdr s hdr.AIC3212_MIC_BIAS_2_4).1.registers
          (toUInt8 hdr.AIC3212_MIC_BIAS_PAGE) 0x33 = 0b00000101)
    ∧ ((AudioControlAIC3212.setMicBias hdr s hdr.AIC3212_MIC_BIAS_3_0).2 = true
      ∧ (AudioControlAIC3212.setMicBias hdr s hdr.AIC3212_MIC_BIAS_3_0).1.registers
          (toUInt8 hdr.AIC3212_MIC_BIAS_PAGE) 0x33 = 0b00010100)
    ∧ ((AudioControlAIC3212.setMicBias hdr s hdr.AIC3212_MIC_BIAS_3_3).2 = true
      ∧ (AudioControlAIC3212.setMicBias hdr s hdr.AIC3212_MIC_BIAS_3_3).1.registers
          (toUInt8 hdr.AIC3212_MIC_BIAS_PAGE) 0x33 = 0b00010101)
    ∧ ((AudioControlAIC3212.setMicBias hdr s hdr.AIC3212_MIC_BIAS_OFF).2 = true
      ∧ (AudioControlAIC3212.setMicBias hdr s hdr.AIC3212_MIC_BIAS_OFF).1.registers
          (toUInt8 hdr.AIC3212_MIC_BIAS_PAGE) 0x33 = 0)
    ∧ ((AudioControlAIC3212.setMicBias hdr s other).2 = false
      ∧ (AudioControlAIC3212.setMicBias hdr s other).1.wireLog
          = s.wireLog ++ [(0, toUInt8 hdr.AIC3212_MIC_BIAS_PAGE)])
    ∧ (bitAnd 0b00010100 AIC3212_MIC_BIAS_MASK ≠ 0b00010100
      ∧ bitAnd 0b00010101 AIC3212_MIC_BIAS_MASK ≠ 0b00010101
      ∧ bitAnd 0b00010100 0b00000011 = 0 ∧ bitAnd 0b00010101 0b00000011 = 1) := by
  have h33 : toUInt8 AIC3212_MICPGA_BIAS_REG ≠ 0 := by decide
  have e33 : toUInt8 AIC3212_MICPGA_BIAS_REG = 0x33 := by decide
  unfold AIC3212Header.distinct at hd
  simp only [List.nodup_cons, List.mem_cons, List.mem_singleton, not_or, List.not_mem_nil,
    not_false_eq_true, List.nodup_nil, and_true] at hd hother
  obtain ⟨⟨⟨h01, h02, h03, h04⟩, ⟨h12, h13, h14⟩, ⟨h23, h24⟩, h34⟩, _⟩ := hd
  obtain ⟨o0, o1, o2, o3, o4⟩ := hother
  have key : ∀ v : Int,
      ((s.aic_goToPage hdr.AIC3212_MIC_BIAS_PAGE).1.aic_writeRegister
          AIC3212_MICPGA_BIAS_REG v).1.registers (toUInt8 hdr.AIC3212_MIC_BIAS_PAGE) 0x33
        = toUInt8 v := by
    intro v
    have := (goToPage_writeRegister_acked s hdr.AIC3212_MIC_BIAS_PAGE
      AIC3212_MICPGA_BIAS_REG v hack h33).1
    rw [e33] at this
    exact this
  refine ⟨⟨?_, ?_⟩, ⟨?_, ?_⟩, ⟨?_, ?_⟩, ⟨?_, ?_⟩, ⟨?_, ?_⟩, ⟨?_, ?_⟩, by decide⟩
  · unfold AudioControlAIC3212.setMicBias; dsimp only; rw [if_pos rfl]
  · unfold AudioControlAIC3212.setMicBias; dsimp only; rw [if_pos rfl, key]; decide
  · unfold AudioControlAIC3212.setMicBias; dsimp only
    rw [if_neg (Ne.symm h12), if_pos rfl]
  · unfold AudioControlAIC3212.setMicBias; dsimp only
    rw [if_neg (Ne.symm h12), if_pos rfl, key]; decide
  · unfold AudioControlAIC3212.setMicBias; dsimp only
    rw [if_neg (Ne.symm h13), if_neg (Ne.symm h23), if_pos rfl]
  · unfold AudioControlAIC3212.setMicBias; dsimp only
    rw [if_neg (Ne.symm h13), if_neg (Ne.symm h23), if_pos rfl, key]; decide
  · unfold AudioControlAIC3212.setMicBias; dsimp only
    rw [if_neg (Ne.symm h14), if_neg (Ne.symm h24), if_neg (Ne.symm h34), if_pos rfl]
  · unfold AudioControlAIC3212.setMicBias; dsimp only
    rw [if_neg (Ne.symm h14), if_neg (Ne.symm h24), if_neg (Ne.symm h34), if_pos rfl, key]
    decide
  · unfold AudioControlAIC3212.setMicBias; dsimp only
    rw [if_neg h01, if_neg h02, if_neg h03, if_neg h04, if_pos rfl]
  · unfold AudioControlAIC3212.setMicBias; dsimp only
    rw [if_neg h01, if_neg h02, if_neg h03, if_neg h04, if_pos rfl, key]; decide
  · unfold AudioControlAIC3212.setMicBias; dsimp only
    rw [if_neg o1, if_neg o2, if_neg o3, if_neg o4, if_neg o0]
  · unfold AudioControlAIC3212.setMicBias; dsimp only
    rw [if_neg o1, if_neg o2, if_neg o3, if_neg o4, if_neg o0]
    exact goToPage_log s _

/-- Witness of C22: setMicBias(AIC3212_MIC_BIAS_3_0) leaves 20 in the
mic-bias register, where the power-on bit combined with the voltage code 2
is 6. -/
theorem setMicBias_register_values_witness :
    (exampleHeader.distinct ∧ exampleCodec.wireResults = []
      ∧ (9 : Int) ∉ [exampleHeader.AIC3212_MIC_BIAS_OFF, exampleHeader.AIC3212_MIC_BIAS_1_62,
          exampleHeader.AIC3212_MIC_BIAS_2_4, exampleHeader.AIC3212_MIC_BIAS_3_0,
          exampleHeader.AIC3212_MIC_BIAS_3_3])
    ∧ (AudioControlAIC3212.setMicBias exampleHeader exampleCodec
        exampleHeader.AIC3212_MIC_BIAS_3_0).1.registers
          (toUInt8 exampleHeader.AIC3212_MIC_BIAS_PAGE) 0x33 = 0b00010100
    ∧ (AudioControlAIC3212.setMicBias exampleHeader exampleCodec
        exampleHeader.AIC3212_MIC_BIAS_3_0).1.registers 1 0x33 = 20
    ∧ bitOr 0b00000100 2 = 6
    ∧ (AudioControlAIC3212.setMicBias exampleHeader exampleCodec
        exampleHeader.AIC3212_MIC_BIAS_3_0).1.registers 1 0x33 ≠ bitOr 0b00000100 2 :=
  ⟨by decide,
   (setMicBias_register_values exampleHeader exampleCodec 9 (by decide) (by decide)
      (by decide)).2.2.1.2,
   by decide, by decide, by decide⟩

/-! ## AudioControlAIC3212: line-out mute -/

theorem writeRegister_log (s : AudioControlAIC3212) (reg val : Int) :
    (s.aic_writeRegister reg val).1.wireLog = s.wireLog ++ [(toUInt8 reg, toUInt8 val)] := by
  unfold AudioControlAIC3212.aic_writeRegister
  dsimp only
  split <;> exact (transmitPair_log s (toUInt8 reg) (toUInt8 val)).1

set_option maxRecDepth 100000 in
/-- Clearing bit 6 of a byte gives a byte. -/
theorem byte_clear_bit6 :
    ∀ c : Fin 256, toUInt8 (bitAnd (c.val : Int) 0b10111111) = bitAnd (c.val : Int) 0b10111111 := by
  decide

/-- What muteLineOut writes: on a bus that works, muteLineOut(false) on
page 1 registers 18 and 19 whose values have bit 6 clear writes back each
value as it is, bit 6 still clear (the literal OR-ed in, 0b0100000000, is
bit 8 and falls off the byte); muteLineOut(true) on registers with bit 6 set
writes back each value with bit 6 cleared. -/
theorem muteLineOut_writes (s : AudioControlAIC3212) (l r : Fin 256)
    (hack : s.wireResults = []) (hreq : s.wireRequests = [])
    (hl : s.registers 1 18 = (l.val : Int)) (hr : s.registers 1 19 = (r.val : Int)) :
    (bitAnd (l.val : Int) 0b01000000 = 0 → bitAnd (r.val : Int) 0b01000000 = 0 →
        (s.muteLineOut false).wireLog
          = s.wireLog ++ [(0, 1), (0, 1), (0, 1), (18, (l.val : Int)), (19, (r.val : Int))])
    ∧ (bitAnd (l.val : Int) 0b01000000 ≠ 0 → bitAnd (r.val : Int) 0b01000000 ≠ 0 →
        (s.muteLineOut true).wireLog
          = s.wireLog ++ [(0, 1), (0, 1), (0, 1), (18, bitAnd (l.val : Int) 0b10111111),
              (19, bitAnd (r.val : Int) 0b10111111)]) := by
  have h18 : toUInt8 18 ≠ 0 := by decide
  have h19 : toUInt8 19 ≠ 0 := by decide
  have e18 : toUInt8 18 = 18 := by decide
  have e19 : toUInt8 19 = 19 := by decide
  have e1 : toUInt8 1 = 1 := by decide
  obtain ⟨vL, regsL, ackL, reqL, _, logL⟩ := aic_readPage_acked s 1 18 hack hreq h18
  obtain ⟨vR, _, _, _, _, logR⟩ := aic_readPage_acked (s.aic_readPage 1 18).1 1 19 ackL reqL h19
  rw [e1, e18, hl] at vL
  rw [e1, e19, regsL, hr] at vR
  rw [e1] at logL logR
  have cl : toUInt8 (l.val : Int) = (l.val : Int) := toUInt8_of_byte _ (by omega) (by omega)
  have cr : toUInt8 (r.val : Int) = (r.val : Int) := toUInt8_of_byte _ (by omega) (by omega)
  have logG := goToPage_log ((s.aic_readPage 1 18).1.aic_readPage 1 19).1 1
  rw [e1, logR, logL] at logG
  constructor
  · intro bl br
    unfold AudioControlAIC3212.muteLineOut
    dsimp only
    rw [if_neg (by decide), vL, vR, cl, cr, if_neg (not_not.mpr bl), if_neg (not_not.mpr br)]
    rw [writeRegister_log, writeRegister_log, logG, e18, e19,
      (byte_bit_facts l).2.2, (byte_bit_facts r).2.2]
    simp
  · intro bl br
    unfold AudioControlAIC3212.muteLineOut
    dsimp only
    rw [if_pos rfl, vL, vR, cl, cr, if_neg bl, if_neg br]
    rw [writeRegister_log, writeRegister_log, logG, e18, e19, byte_clear_bit6 l,
      byte_clear_bit6 r]
    simp

/-- An evaluation of muteLineOut: page 1 registers 18 and 19 hold 5 (bit 6
clear); muteLineOut(false) writes 5 back to each, where the value with bit 6
set is 69, and the registers still hold 5. -/
theorem muteLineOut_writes_witness :
    (poweredCodec.wireResults = [] ∧ poweredCodec.wireRequests = []
      ∧ poweredCodec.registers 1 18 = (((5 : Fin 256).val : Nat) : Int)
      ∧ poweredCodec.registers 1 19 = (((5 : Fin 256).val : Nat) : Int)
      ∧ bitAnd 5 0b01000000 = 0)
    ∧ (poweredCodec.muteLineOut false).wireLog
        = poweredCodec.wireLog ++ [(0, 1), (0, 1), (0, 1), (18, 5), (19, 5)]
    ∧ bitOr 5 0b01000000 = 69
    ∧ (poweredCodec.muteLineOut false).registers 1 18 = 5
    ∧ (poweredCodec.muteLineOut false).registers 1 18 ≠ bitOr 5 0b01000000 :=
  ⟨by decide,
   (muteLineOut_writes poweredCodec 5 5 (by decide) (by decide) (by decide) (by decide)).1
      (by decide) (by decide),
   by decide, by decide, by decide⟩

end Tympan
